import Mathlib

/-!
# Verification of `push_block.py` (emergency WAF BLOCK-rule push)

Shallow embedding of the repository's `src/push_block.py` together with
proofs of the behavioural claims about it.  The Python module is a small
synchronous CLI tool; every function of interest is either pure
(`parse_web_acl_arn`, the rule merge) or a straight-line sequence of calls
against an injected `client` object (`upsert_ipset`, `upsert_regexset`,
`ensure_block_rule`).  We embed the client as an explicit record of
state-passing functions (`WafClient σ`), mirroring the dependency-injection
style of the source, and embed each Python function as a Lean function over
that record.  Machine-level concerns (network transport, the 0.5 s backoff
sleep) are not modelled; everything else follows the source line by line.
-/

/-! ## Character-level string utilities

Python's `str.split` with a single-character separator, `str.lower`, and
the `in` substring test (for a single-character needle) are modelled over
`List Char` so that all definitions reduce by `decide`/`rfl`. -/

/-- `splitOnChar c l` models Python's `s.split(c)` for a one-character
separator `c`: the result is the list of (possibly empty) chunks between
occurrences of `c`.  Like Python's `split`, it never returns `[]`. -/
def splitOnChar (c : Char) : List Char → List (List Char)
  | [] => [[]]
  | x :: xs =>
    let r := splitOnChar c xs
    if x = c then [] :: r
    else
      match r with
      | [] => [[x]]
      | y :: ys => (x :: y) :: ys

/-- Joins chunks with the separator character; inverse direction of
`splitOnChar`, used to model Python's `split(sep, maxsplit)`. -/
def intercalateChar (c : Char) : List (List Char) → List Char
  | [] => []
  | [x] => x
  | x :: xs => x ++ c :: intercalateChar c xs

/-- Models Python's `s.split(":", 5)[-1]` applied to the chunk list
`segs = splitOnChar ':' s`: if there are at most six chunks the last chunk
is returned, otherwise chunks from index 5 onwards are re-joined with `':'`
(they were never split in Python because of `maxsplit=5`). -/
def pyTailAfter5Colons (segs : List (List Char)) : List Char :=
  intercalateChar ':' (segs.drop (min 5 (segs.length - 1)))

/-- Python's `"/" in a` for the single character `'/'`. -/
def pyContainsChar (s : String) (c : Char) : Bool :=
  s.toList.contains c

instance {ε α : Type} [DecidableEq ε] [DecidableEq α] : DecidableEq (Except ε α) := fun a b =>
  match a, b with
  | .ok x, .ok y =>
    if h : x = y then .isTrue (by simp [h]) else .isFalse (by simp [h])
  | .error x, .error y =>
    if h : x = y then .isTrue (by simp [h]) else .isFalse (by simp [h])
  | .ok _, .error _ => .isFalse (by simp)
  | .error _, .ok _ => .isFalse (by simp)

/-! ## Policy Locator: `parse_web_acl_arn` (source lines 50-64) -/

/-- The slash-separated chunks of `arn.split(":", 5)[-1]` — the `parts`
variable of `parse_web_acl_arn`. -/
def arnParts (arn : String) : List (List Char) :=
  splitOnChar '/' (pyTailAfter5Colons (splitOnChar ':' arn.toList))

/-- Embedding of `parse_web_acl_arn`:

```python
right = arn.split(":", 5)[-1]          # "<scope>/webacl/<name>/<id>"
parts = right.split("/")
scope_raw = parts[0].lower()           # "regional" or "global"
name = parts[2]
wid = parts[3]
scope_from_arn = "CLOUDFRONT" if scope_raw == "global" else "REGIONAL"
return scope_from_arn, name, wid
```

The only statement that can raise inside the `try` block is the indexing
`parts[2]` / `parts[3]` (an `IndexError` when the slash-split has fewer
than four chunks; `parts[0]` always exists since `split` never returns an
empty list).  Any exception is converted to
`ValueError(f"Invalid WebACL ARN: {arn} (...)")`, which echoes the
offending input; we model the error value as that message prefix plus the
input. -/
def parse_web_acl_arn (arn : String) : Except String (String × String × String) :=
  match (arnParts arn)[2]?, (arnParts arn)[3]? with
  | some nm, some wid =>
    .ok (if ((arnParts arn).headD []).map Char.toLower = "global".toList
           then "CLOUDFRONT" else "REGIONAL",
         String.mk nm, String.mk wid)
  | _, _ => .error ("Invalid WebACL ARN: " ++ arn)

/-! ## `waf_client` region pinning (source lines 40-47) -/

/-- Embedding of the `region_name` argument computed by `waf_client`:
`region = "us-east-1" if scope == "CLOUDFRONT" else None`. -/
def waf_client_region (scope : String) : Option String :=
  if scope = "CLOUDFRONT" then some "us-east-1" else none

/-- Modelled from the spec: the client constructor (boto3, outside this
repository) resolves the effective region as the explicitly passed
`region_name` when one is given, and otherwise falls back to the caller's
ambient (environment/config) region. -/
def effectiveClientRegion (explicitRegion : Option String) (ambient : String) : String :=
  explicitRegion.getD ambient

/-! ## Sorted-set merge: Python's `sorted(set(xs) | set(ys))` -/

/-- Lexicographic strict comparison on character lists, by code point:
exactly the order Python's `sorted` uses on strings. -/
def charListLt : List Char → List Char → Bool
  | [], [] => false
  | [], _ :: _ => true
  | _ :: _, [] => false
  | a :: as, b :: bs =>
    if a < b then true
    else if b < a then false
    else charListLt as bs

/-- Executable strict comparison of strings (Python's `<` on `str`). -/
def strLt (a b : String) : Bool :=
  charListLt a.toList b.toList

/-- Inserts a string into a (strictly) sorted duplicate-free list, keeping
it sorted and duplicate-free. -/
def insertSorted (a : String) : List String → List String
  | [] => [a]
  | b :: t =>
    if a = b then b :: t
    else if strLt a b then a :: b :: t
    else b :: insertSorted a t

/-- `pySortedSet l` is the strictly ascending duplicate-free enumeration of
the members of `l`: exactly Python's `sorted(set(l))` (Python sorts
strings lexicographically by code point, which is `String`'s linear
order).  `sorted(set(xs) | set(ys))` is `pySortedSet (xs ++ ys)`. -/
def pySortedSet (l : List String) : List String :=
  l.foldr insertSorted []

/-! ## Data model of the WAF API objects used by the source -/

/-- A text transformation entry; the source always uses
`{"Priority": 0, "Type": "NONE"}`.  (`Type` is a reserved word in Lean, so
the field is named `TransformType`.) -/
structure TextTransformationEntry where
  Priority : Nat
  TransformType : String
deriving DecidableEq, Repr

/-- Field-to-match selector; the source only ever uses `{"UriPath": {}}`. -/
inductive FieldToMatch where
  | UriPath
deriving DecidableEq, Repr

/-- Rule statement.  The source builds the two reference statements below;
`Opaque` stands for any other statement shape already present in a fetched
policy document (the source treats foreign rules as opaque data). -/
inductive WafStatement where
  | IPSetReferenceStatement (ARN : String)
  | RegexPatternSetReferenceStatement (ARN : String) (Field : FieldToMatch)
      (TextTransformations : List TextTransformationEntry)
  | Opaque (payload : String)
deriving DecidableEq, Repr

/-- Rule action; the source writes `{"Block": {}}` and treats the actions
of foreign rules as opaque data. -/
inductive RuleAction where
  | Block
  | OpaqueAction (payload : String)
deriving DecidableEq, Repr

structure VisibilityConfig where
  SampledRequestsEnabled : Bool
  CloudWatchMetricsEnabled : Bool
  MetricName : String
deriving DecidableEq, Repr

/-- A WebACL rule as manipulated by the source. -/
structure Rule where
  Name : String
  Priority : Nat
  Action : RuleAction
  Statement : WafStatement
  VisibilityConfig : VisibilityConfig
deriving DecidableEq, Repr

/-- The fetched `WebACL` object (fields the source reads). -/
structure WebACLData where
  Name : String
  Id : String
  DefaultAction : String
  VisibilityConfig : VisibilityConfig
  Rules : List Rule
deriving DecidableEq, Repr

/-- Response of `get_web_acl`: the document plus its lock token. -/
structure GetACLResp where
  WebACL : WebACLData
  LockToken : String
deriving DecidableEq, Repr

/-- A `botocore.exceptions.ClientError`; the source only inspects
`e.response.get("Error", {}).get("Code")`, which may be absent (`none`). -/
structure ClientError where
  Code : Option String
deriving DecidableEq, Repr

/-- Errors an embedded function can finish with: `valueError` for Python
`ValueError` (including the ARN parse failure), `patternError` for a regex
compilation error (`re.error`), `clientError` for a propagated API error. -/
inductive Err where
  | valueError (msg : String)
  | patternError (msg : String)
  | clientError (e : ClientError)
deriving DecidableEq, Repr

structure IPSetSummary where
  Name : String
  Id : String
deriving DecidableEq, Repr

/-- Body of a `get_ip_set` response (`resp["IPSet"]`). -/
structure IPSetData where
  Addresses : List String
  ARN : String
deriving DecidableEq, Repr

structure GetIPSetResp where
  IPSet : IPSetData
  LockToken : String
deriving DecidableEq, Repr

structure RegexSetSummary where
  Name : String
  Id : String
deriving DecidableEq, Repr

/-- Body of a `get_regex_pattern_set` response (`resp["RegexPatternSet"]`). -/
structure RegexSetData where
  RegularExpressionList : List String
  ARN : String
deriving DecidableEq, Repr

structure GetRegexSetResp where
  RegexPatternSet : RegexSetData
  LockToken : String
deriving DecidableEq, Repr

/-- `create_*` responses: the source reads `created["Summary"]["ARN"]`. -/
structure CreateSummary where
  ARN : String
deriving DecidableEq, Repr

structure CreateResp where
  Summary : CreateSummary
deriving DecidableEq, Repr

/-- Request record of `update_web_acl` (keyword arguments of the call). -/
structure UpdateACLReq where
  Name : String
  Scope : String
  Id : String
  DefaultAction : String
  VisibilityConfig : VisibilityConfig
  Rules : List Rule
  LockToken : String
deriving DecidableEq, Repr

/-- The injected WAFv2 client: one state-passing function per API
operation the source invokes.  Each returns `Except ClientError` because
any `boto3` call may raise `ClientError`; the source catches it only
around `update_web_acl`, so everywhere else an error simply propagates. -/
structure WafClient (σ : Type) where
  list_ip_sets : String → σ → Except ClientError (List IPSetSummary) × σ
  get_ip_set : String → String → String → σ → Except ClientError GetIPSetResp × σ
  update_ip_set : String → String → String → List String → String → σ →
    Except ClientError Unit × σ
  create_ip_set : String → String → List String → String → σ →
    Except ClientError CreateResp × σ
  list_regex_pattern_sets : String → σ → Except ClientError (List RegexSetSummary) × σ
  get_regex_pattern_set : String → String → String → σ →
    Except ClientError GetRegexSetResp × σ
  update_regex_pattern_set : String → String → String → List String → String → σ →
    Except ClientError Unit × σ
  create_regex_pattern_set : String → String → List String → σ →
    Except ClientError CreateResp × σ
  get_web_acl : String → String → String → σ → Except ClientError GetACLResp × σ
  update_web_acl : UpdateACLReq → σ → Except ClientError Unit × σ

/-! ## Reference-Set Store Adapter: `upsert_ipset` (lines 69-90) and
`upsert_regexset` (lines 93-116) -/

/-- Embedding of `upsert_ipset`.  Follows the source exactly:
validate every address contains `'/'`; list the sets of the scope; find
the first summary whose `Name` equals `name`; if present, get it, compute
`merged = sorted(set(cur) | set(addresses))`, update only when
`merged != cur` (Python list comparison), and return the fetched ARN;
otherwise create the set with the given addresses verbatim and return the
created ARN. -/
def upsert_ipset (client : WafClient σ) (scope name : String) (addresses : List String)
    (s : σ) : Except Err String × σ :=
  if ¬ addresses.all (fun a => pyContainsChar a '/') then
    (.error (.valueError "IP must be CIDR form (e.g., 203.0.113.10/32)."), s)
  else
    match client.list_ip_sets scope s with
    | (.error e, s1) => (.error (.clientError e), s1)
    | (.ok listed, s1) =>
      match listed.find? (fun x => x.Name == name) with
      | some existing =>
        match client.get_ip_set name scope existing.Id s1 with
        | (.error e, s2) => (.error (.clientError e), s2)
        | (.ok cur, s2) =>
          let merged := pySortedSet (cur.IPSet.Addresses ++ addresses)
          if merged = cur.IPSet.Addresses then (.ok cur.IPSet.ARN, s2)
          else
            match client.update_ip_set name scope existing.Id merged cur.LockToken s2 with
            | (.error e, s3) => (.error (.clientError e), s3)
            | (.ok _, s3) => (.ok cur.IPSet.ARN, s3)
      | none =>
        match client.create_ip_set name scope addresses "IPV4" s1 with
        | (.error e, s2) => (.error (.clientError e), s2)
        | (.ok created, s2) => (.ok created.Summary.ARN, s2)

/-- Embedding of `upsert_regexset`.  `re.compile` belongs to the Python
standard library, outside this repository; it is taken as the abstract
parameter `reCompile`, returning either `()` or the compiler's diagnostic.
Validation (`for p in patterns: re.compile(p)`) raises at the first
pattern that fails to compile, before any client call.  The rest mirrors
`upsert_ipset` with the regex-set API. -/
def upsert_regexset (reCompile : String → Except String Unit) (client : WafClient σ)
    (scope name : String) (patterns : List String) (s : σ) : Except Err String × σ :=
  match patterns.findSome?
      (fun p => match reCompile p with | .error m => some m | .ok _ => none) with
  | some m => (.error (.patternError m), s)
  | none =>
    match client.list_regex_pattern_sets scope s with
    | (.error e, s1) => (.error (.clientError e), s1)
    | (.ok listed, s1) =>
      match listed.find? (fun x => x.Name == name) with
      | some existing =>
        match client.get_regex_pattern_set name scope existing.Id s1 with
        | (.error e, s2) => (.error (.clientError e), s2)
        | (.ok cur, s2) =>
          let merged := pySortedSet (cur.RegexPatternSet.RegularExpressionList ++ patterns)
          if merged = cur.RegexPatternSet.RegularExpressionList then
            (.ok cur.RegexPatternSet.ARN, s2)
          else
            match client.update_regex_pattern_set name scope existing.Id merged
                cur.LockToken s2 with
            | (.error e, s3) => (.error (.clientError e), s3)
            | (.ok _, s3) => (.ok cur.RegexPatternSet.ARN, s3)
      | none =>
        match client.create_regex_pattern_set name scope patterns s1 with
        | (.error e, s2) => (.error (.clientError e), s2)
        | (.ok created, s2) => (.ok created.Summary.ARN, s2)

/-! ## Rule Upsert Engine: `ensure_block_rule` (lines 121-182) -/

/-- Python truthiness of an optional string argument (`if ipset_arn:`):
`None` and `""` are falsy. -/
def pyTruthy : Option String → Bool
  | none => false
  | some s => !(s == "")

/-- Embedding of the inner `build_stmt()` closure of `ensure_block_rule`. -/
def build_stmt (ipset_arn regex_arn : Option String) : Except String WafStatement :=
  if pyTruthy ipset_arn then
    .ok (.IPSetReferenceStatement (ipset_arn.getD ""))
  else if pyTruthy regex_arn then
    .ok (.RegexPatternSetReferenceStatement (regex_arn.getD "") .UriPath
      [{ Priority := 0, TransformType := "NONE" }])
  else .error "Either ipset_arn or regex_arn must be provided."

/-- The `desired` rule dictionary built on every attempt (lines 148-158). -/
def desiredRule (stmt : WafStatement) : Rule :=
  { Name := "CLIBlock"
    Priority := 1
    Action := .Block
    Statement := stmt
    VisibilityConfig :=
      { SampledRequestsEnabled := true
        CloudWatchMetricsEnabled := true
        MetricName := "CLIBlock" } }

/-- Embedding of
`next((i for i, r in enumerate(rules) if r["Name"] == "CLIBlock"), None)`:
index of the first rule satisfying `p`, if any. -/
def firstIdx (p : Rule → Bool) : List Rule → Option Nat
  | [] => none
  | r :: rest => if p r then some 0 else (firstIdx p rest).map (· + 1)

/-- The merge step of `ensure_block_rule` (lines 160-164): replace the
first rule named `"CLIBlock"` in place, or insert `desired` at index 0. -/
def upsertRules (rules : List Rule) (desired : Rule) : List Rule :=
  match firstIdx (fun r => r.Name == "CLIBlock") rules with
  | none => desired :: rules
  | some i => rules.set i desired

/-- One pass of the `for attempt in (1, 2)` loop of `ensure_block_rule`.
The list argument carries the remaining attempt numbers (`[1, 2]`
initially); `continue` is recursion on the tail and is taken exactly when
the write fails with code `"WAFOptimisticLockException"` and
`attempt == 1`.  The 0.5-second `time.sleep` before the retry has no
observable effect in this model and is not represented. -/
def ensure_loop (client : WafClient σ) (scope name wid : String)
    (ipset_arn regex_arn : Option String) : List Nat → σ → Except Err Unit × σ
  | [], s => (.error (.valueError "attempt loop exhausted"), s)
  | attempt :: rest, s =>
    match client.get_web_acl name scope wid s with
    | (.error e, s1) => (.error (.clientError e), s1)
    | (.ok acl, s1) =>
      match build_stmt ipset_arn regex_arn with
      | .error m => (.error (.valueError m), s1)
      | .ok stmt =>
        let rules := upsertRules acl.WebACL.Rules (desiredRule stmt)
        match client.update_web_acl
            { Name := acl.WebACL.Name
              Scope := scope
              Id := acl.WebACL.Id
              DefaultAction := acl.WebACL.DefaultAction
              VisibilityConfig := acl.WebACL.VisibilityConfig
              Rules := rules
              LockToken := acl.LockToken } s1 with
        | (.ok _, s2) => (.ok (), s2)
        | (.error e, s2) =>
          if e.Code = some "WAFOptimisticLockException" ∧ attempt = 1 then
            ensure_loop client scope name wid ipset_arn regex_arn rest s2
          else (.error (.clientError e), s2)

/-- Embedding of `ensure_block_rule`: parse the ARN (a failure propagates
as `ValueError` before any client call; the non-fatal scope-mismatch
warning is a print statement with no further effect and is not modelled),
then run the two-attempt loop. -/
def ensure_block_rule (client : WafClient σ) (scope web_acl_arn : String)
    (ipset_arn regex_arn : Option String) (s : σ) : Except Err Unit × σ :=
  match parse_web_acl_arn web_acl_arn with
  | .error m => (.error (.valueError m), s)
  | .ok (_, name, wid) =>
    ensure_loop client scope name wid ipset_arn regex_arn [1, 2] s

/-! ## Client instantiations

The source passes one `boto3` client around; the theorems instantiate the
`WafClient` interface three ways: a logging probe client with fixed
responses (to observe exactly which calls an upsert makes), a scripted
behaviour client (to quantify over every possible sequence of
`update_web_acl` outcomes), and an honest operational store (to run the
whole address-block path end to end). -/

/-- One API call, as recorded by the probe client. -/
inductive Call where
  | listIPSets (scope : String)
  | getIPSet (name scope id : String)
  | updateIPSet (name scope id : String) (addresses : List String) (lockToken : String)
  | createIPSet (name scope : String) (addresses : List String) (ipVersion : String)
  | listRegexSets (scope : String)
  | getRegexSet (name scope id : String)
  | updateRegexSet (name scope id : String) (patterns : List String) (lockToken : String)
  | createRegexSet (name scope : String) (patterns : List String)
  | getWebACL (name scope id : String)
  | updateWebACL (req : UpdateACLReq)
deriving DecidableEq, Repr

/-- Fixed responses for the probe client. -/
structure ProbeEnv where
  ipSummaries : List IPSetSummary
  ipResp : GetIPSetResp
  reSummaries : List RegexSetSummary
  reResp : GetRegexSetResp
  aclResp : GetACLResp
deriving Repr

/-- A client that answers every call from `ProbeEnv`, always succeeds, and
logs each call it receives; its state is the call log. -/
def probeClient (env : ProbeEnv) : WafClient (List Call) where
  list_ip_sets := fun scope log => (.ok env.ipSummaries, log ++ [.listIPSets scope])
  get_ip_set := fun name scope id log => (.ok env.ipResp, log ++ [.getIPSet name scope id])
  update_ip_set := fun name scope id addrs tok log =>
    (.ok (), log ++ [.updateIPSet name scope id addrs tok])
  create_ip_set := fun name scope addrs v log =>
    (.ok { Summary := { ARN := "arn:probe:new-ipset" } }, log ++ [.createIPSet name scope addrs v])
  list_regex_pattern_sets := fun scope log => (.ok env.reSummaries, log ++ [.listRegexSets scope])
  get_regex_pattern_set := fun name scope id log =>
    (.ok env.reResp, log ++ [.getRegexSet name scope id])
  update_regex_pattern_set := fun name scope id pats tok log =>
    (.ok (), log ++ [.updateRegexSet name scope id pats tok])
  create_regex_pattern_set := fun name scope pats log =>
    (.ok { Summary := { ARN := "arn:probe:new-regexset" } }, log ++ [.createRegexSet name scope pats])
  get_web_acl := fun name scope id log => (.ok env.aclResp, log ++ [.getWebACL name scope id])
  update_web_acl := fun req log => (.ok (), log ++ [.updateWebACL req])

/-- A scripted behaviour of the policy store towards the Rule Upsert
Engine: `fetchResp n` is the outcome of the `(n+1)`-th `get_web_acl` call
and `writeResp n` the outcome of the `(n+1)`-th `update_web_acl` call
(`none` = success). -/
structure StoreBehavior where
  fetchResp : Nat → Except ClientError GetACLResp
  writeResp : Nat → Option ClientError

/-- Counters observed while driving `ensure_block_rule` against a
`StoreBehavior`: number of document fetches, number of write attempts, and
the rule sequences submitted by each write. -/
structure CountState where
  fetches : Nat
  writes : Nat
  submitted : List (List Rule)
deriving DecidableEq, Repr

/-- The scripted client.  Only the two WebACL operations are exercised by
`ensure_block_rule`; the reference-set operations answer with an error so
that any unexpected use would be visible in a theorem. -/
def behaviorClient (b : StoreBehavior) : WafClient CountState where
  list_ip_sets := fun _ s => (.error { Code := some "UnusedByEngine" }, s)
  get_ip_set := fun _ _ _ s => (.error { Code := some "UnusedByEngine" }, s)
  update_ip_set := fun _ _ _ _ _ s => (.error { Code := some "UnusedByEngine" }, s)
  create_ip_set := fun _ _ _ _ s => (.error { Code := some "UnusedByEngine" }, s)
  list_regex_pattern_sets := fun _ s => (.error { Code := some "UnusedByEngine" }, s)
  get_regex_pattern_set := fun _ _ _ s => (.error { Code := some "UnusedByEngine" }, s)
  update_regex_pattern_set := fun _ _ _ _ _ s => (.error { Code := some "UnusedByEngine" }, s)
  create_regex_pattern_set := fun _ _ _ s => (.error { Code := some "UnusedByEngine" }, s)
  get_web_acl := fun _ _ _ s =>
    (b.fetchResp s.fetches, { s with fetches := s.fetches + 1 })
  update_web_acl := fun req s =>
    ((match b.writeResp s.writes with
      | none => .ok ()
      | some e => .error e),
     { s with writes := s.writes + 1, submitted := s.submitted ++ [req.Rules] })

/-- An IP set as held by the operational store. -/
structure StoredIPSet where
  Name : String
  Scope : String
  Id : String
  Addresses : List String
  ARN : String
  LockToken : Nat
deriving DecidableEq, Repr

/-- A regex pattern set as held by the operational store. -/
structure StoredRegexSet where
  Name : String
  Scope : String
  Id : String
  RegularExpressionList : List String
  ARN : String
  LockToken : Nat
deriving DecidableEq, Repr

/-- The single WebACL held by the operational store. -/
structure StoredACL where
  Name : String
  Scope : String
  Id : String
  DefaultAction : String
  VisibilityConfig : VisibilityConfig
  Rules : List Rule
  LockToken : Nat
deriving DecidableEq, Repr

/-- State of the honest operational policy store: the reference sets, one
target WebACL, and a counter for generating fresh resource ids. -/
structure Store where
  ipsets : List StoredIPSet
  regexsets : List StoredRegexSet
  acl : StoredACL
  nextId : Nat
deriving DecidableEq, Repr

/-- Replaces the first element satisfying `q` by its image under `f`. -/
def updFirst {α : Type} (q : α → Bool) (f : α → α) : List α → List α
  | [] => []
  | y :: rest => if q y then f y :: rest else y :: updFirst q f rest

/-- Lookup predicate used by the store for `get`/`update` of an IP set:
AWS addresses a set by name, scope and id. -/
def ipKey (name scope id : String) (x : StoredIPSet) : Bool :=
  x.Name == name && x.Scope == scope && x.Id == id

/-- ARN generated by the store for a newly created IP set. -/
def mkIPSetARN (name : String) (n : Nat) : String :=
  "arn:aws:wafv2:ipset/" ++ name ++ "/id" ++ toString n

/-- ARN generated by the store for a newly created regex pattern set. -/
def mkRegexSetARN (name : String) (n : Nat) : String :=
  "arn:aws:wafv2:regexset/" ++ name ++ "/id" ++ toString n

/-- The honest store client: `list` filters by scope, `get` looks a
resource up by name/scope/id, `update` verifies the optimistic lock token
and bumps it, `create` appends a fresh resource.  The WebACL operations
follow the same token discipline on the single stored ACL. -/
def storeClient : WafClient Store where
  list_ip_sets := fun scope s =>
    (.ok ((s.ipsets.filter (fun x => x.Scope == scope)).map
        (fun x => { Name := x.Name, Id := x.Id })), s)
  get_ip_set := fun name scope id s =>
    match s.ipsets.find? (ipKey name scope id) with
    | some x =>
      (.ok { IPSet := { Addresses := x.Addresses, ARN := x.ARN },
             LockToken := toString x.LockToken }, s)
    | none => (.error { Code := some "WAFNonexistentItemException" }, s)
  update_ip_set := fun name scope id addrs tok s =>
    match s.ipsets.find? (ipKey name scope id) with
    | some x =>
      if tok == toString x.LockToken then
        (.ok (), { s with ipsets :=
          (updFirst (ipKey name scope id)
            (fun y => { y with Addresses := addrs, LockToken := y.LockToken + 1 })
            s.ipsets) })
      else (.error { Code := some "WAFOptimisticLockException" }, s)
    | none => (.error { Code := some "WAFNonexistentItemException" }, s)
  create_ip_set := fun name scope addrs _ s =>
    (.ok { Summary := { ARN := mkIPSetARN name s.nextId } },
     { s with
        ipsets := s.ipsets ++
          [{ Name := name, Scope := scope, Id := "id" ++ toString s.nextId,
             Addresses := addrs, ARN := mkIPSetARN name s.nextId, LockToken := 0 }],
        nextId := s.nextId + 1 })
  list_regex_pattern_sets := fun scope s =>
    (.ok ((s.regexsets.filter (fun x => x.Scope == scope)).map
        (fun x => { Name := x.Name, Id := x.Id })), s)
  get_regex_pattern_set := fun name scope id s =>
    match s.regexsets.find? (fun x => x.Name == name && x.Scope == scope && x.Id == id) with
    | some x =>
      (.ok { RegexPatternSet :=
               { RegularExpressionList := x.RegularExpressionList, ARN := x.ARN },
             LockToken := toString x.LockToken }, s)
    | none => (.error { Code := some "WAFNonexistentItemException" }, s)
  update_regex_pattern_set := fun name scope id pats tok s =>
    match s.regexsets.find? (fun x => x.Name == name && x.Scope == scope && x.Id == id) with
    | some x =>
      if tok == toString x.LockToken then
        (.ok (), { s with regexsets :=
          (updFirst (fun y => y.Name == name && y.Scope == scope && y.Id == id)
            (fun y => { y with RegularExpressionList := pats, LockToken := y.LockToken + 1 })
            s.regexsets) })
      else (.error { Code := some "WAFOptimisticLockException" }, s)
    | none => (.error { Code := some "WAFNonexistentItemException" }, s)
  create_regex_pattern_set := fun name scope pats s =>
    (.ok { Summary := { ARN := mkRegexSetARN name s.nextId } },
     { s with
        regexsets := s.regexsets ++
          [{ Name := name, Scope := scope, Id := "id" ++ toString s.nextId,
             RegularExpressionList := pats, ARN := mkRegexSetARN name s.nextId,
             LockToken := 0 }],
        nextId := s.nextId + 1 })
  get_web_acl := fun name scope id s =>
    if s.acl.Name == name && s.acl.Scope == scope && s.acl.Id == id then
      (.ok { WebACL :=
               { Name := s.acl.Name, Id := s.acl.Id,
                 DefaultAction := s.acl.DefaultAction,
                 VisibilityConfig := s.acl.VisibilityConfig, Rules := s.acl.Rules },
             LockToken := toString s.acl.LockToken }, s)
    else (.error { Code := some "WAFNonexistentItemException" }, s)
  update_web_acl := fun req s =>
    if s.acl.Name == req.Name && s.acl.Scope == req.Scope && s.acl.Id == req.Id then
      if req.LockToken == toString s.acl.LockToken then
        (.ok (), { s with acl := { s.acl with
            DefaultAction := req.DefaultAction,
            VisibilityConfig := req.VisibilityConfig,
            Rules := req.Rules,
            LockToken := s.acl.LockToken + 1 } })
      else (.error { Code := some "WAFOptimisticLockException" }, s)
    else (.error { Code := some "WAFNonexistentItemException" }, s)

/-- The address branch of `main` (lines 192-194): upsert the IP set named
`"cli-block-ips"` with the single CIDR, then ensure the block rule with
the returned ARN. -/
def push_block_ip (scope web_acl_arn block_ip : String) (s : Store) :
    Except Err Unit × Store :=
  match upsert_ipset storeClient scope "cli-block-ips" [block_ip] s with
  | (.error e, s1) => (.error e, s1)
  | (.ok ipsetArn, s1) =>
    ensure_block_rule storeClient scope web_acl_arn (some ipsetArn) none s1

/-- The reference set the address path operates on: the first IP set of
the given scope named as requested (the store's `list`-then-find view). -/
def lookupIPSet (s : Store) (scope name : String) : Option StoredIPSet :=
  (s.ipsets.filter (fun x => x.Scope == scope)).find? (fun x => x.Name == name)

/-- Number of rules named `"CLIBlock"` in a rule sequence. -/
def countCLIBlock (rules : List Rule) : Nat :=
  (rules.filter (fun r => r.Name == "CLIBlock")).length

/-- A sample foreign rule used by concrete witnesses. -/
def sampleOtherRule : Rule :=
  { Name := "RateLimit"
    Priority := 7
    Action := .OpaqueAction "Count"
    Statement := .Opaque "rate-based"
    VisibilityConfig :=
      { SampledRequestsEnabled := false
        CloudWatchMetricsEnabled := true
        MetricName := "RateLimit" } }

/-- Concrete probe environment used by the C5/C7/C9 witnesses. -/
def witnessEnv : ProbeEnv :=
  { ipSummaries := [{ Name := "cli-block-ips", Id := "i1" }]
    ipResp :=
      { IPSet := { Addresses := ["10.0.0.0/8"], ARN := "arn:ip:cli-block-ips" },
        LockToken := "tok-ip-1" }
    reSummaries := [{ Name := "cli-block-uri", Id := "r1" }]
    reResp :=
      { RegexPatternSet :=
          { RegularExpressionList := ["^/admin"], ARN := "arn:re:cli-block-uri" },
        LockToken := "tok-re-1" }
    aclResp :=
      { WebACL :=
          { Name := "acl", Id := "aclid", DefaultAction := "Allow",
            VisibilityConfig :=
              { SampledRequestsEnabled := true,
                CloudWatchMetricsEnabled := true, MetricName := "acl" },
            Rules := [] },
        LockToken := "tok-acl-1" } }

/-- A regex compiler stub for witnesses: rejects exactly the single
pattern `"("` with a fixed diagnostic. -/
def witnessCompile (p : String) : Except String Unit :=
  if p = "(" then .error "missing ), unterminated subpattern" else .ok ()

/-- Probe environment whose stored IP-set list is content-equal to the
merge result of the witness request but stored out of order. -/
def witnessEnvUnsorted : ProbeEnv :=
  { witnessEnv with
    ipResp :=
      { IPSet := { Addresses := ["10.0.0.0/8", "1.2.3.4/32"],
                   ARN := "arn:ip:cli-block-ips" },
        LockToken := "tok-ip-1" } }

/-- A scripted behaviour for the C2 witness: every fetch succeeds, the
first write fails with the optimistic-lock code, every later write
succeeds. -/
def conflictOnceBehavior : StoreBehavior :=
  { fetchResp := fun _ => .ok witnessEnv.aclResp
    writeResp := fun k =>
      if k = 0 then some { Code := some "WAFOptimisticLockException" } else none }

/-- Concrete store for the C1 witness: no reference sets yet, an empty
rule sequence in the target WebACL. -/
def witnessStore : Store :=
  { ipsets := []
    regexsets := []
    acl :=
      { Name := "myacl", Scope := "REGIONAL", Id := "abcd-1234",
        DefaultAction := "Allow",
        VisibilityConfig :=
          { SampledRequestsEnabled := true,
            CloudWatchMetricsEnabled := true, MetricName := "myacl" },
        Rules := [], LockToken := 0 }
    nextId := 0 }

/-! ## Lemma layer: the sorted-set merge -/

theorem charListLt_iff (l₁ l₂ : List Char) :
    charListLt l₁ l₂ = true ↔ List.Lex (· < ·) l₁ l₂ := by
  induction l₁ generalizing l₂ with
  | nil =>
    cases l₂ with
    | nil =>
      apply iff_of_false (by simp [charListLt])
      intro h; cases h
    | cons b bs => exact iff_of_true rfl (List.Lex.nil)
  | cons a as ih =>
    cases l₂ with
    | nil =>
      apply iff_of_false (by simp [charListLt])
      exact List.Lex.not_nil_right _ _
    | cons b bs =>
      by_cases hab : a < b
      · exact iff_of_true (by simp [charListLt, hab]) (List.Lex.rel hab)
      · by_cases hba : b < a
        · apply iff_of_false (by simp [charListLt, hab, hba])
          intro h
          cases h with
          | rel h' => exact hab h'
          | cons _ => exact lt_irrefl a hba
        · have hrest : charListLt (a :: as) (b :: bs) = charListLt as bs := by
            simp [charListLt, hab, hba]
          have heq : a = b := le_antisymm (not_lt.mp hba) (not_lt.mp hab)
          subst heq
          rw [hrest, List.Lex.cons_iff]
          exact ih bs

theorem strLt_iff (a b : String) : strLt a b = true ↔ a < b := by
  rw [String.lt_iff_toList_lt]
  exact charListLt_iff a.toList b.toList

theorem mem_insertSorted {x a : String} {l : List String} :
    x ∈ insertSorted a l ↔ x = a ∨ x ∈ l := by
  induction l with
  | nil => simp [insertSorted]
  | cons b t ih =>
    by_cases hab : a = b
    · subst hab
      simp only [insertSorted, if_pos rfl]
      constructor
      · intro h; exact Or.inr h
      · rintro (h | h)
        · subst h; exact List.mem_cons_self _ _
        · exact h
    · by_cases hlt : strLt a b
      · simp only [insertSorted, if_neg hab, if_pos hlt]
        exact List.mem_cons
      · simp only [insertSorted, if_neg hab, if_neg hlt]
        simp only [List.mem_cons, ih]
        tauto

theorem pairwise_insertSorted {a : String} {l : List String}
    (h : l.Pairwise (· < ·)) : (insertSorted a l).Pairwise (· < ·) := by
  induction l with
  | nil => simp [insertSorted]
  | cons b t ih =>
    rcases List.pairwise_cons.mp h with ⟨hb, ht⟩
    by_cases hab : a = b
    · subst hab; simpa [insertSorted] using h
    · by_cases hlt : strLt a b
      · have halt : a < b := (strLt_iff a b).mp hlt
        simp only [insertSorted, if_neg hab, if_pos hlt]
        refine List.pairwise_cons.mpr ⟨?_, h⟩
        intro x hx
        rcases List.mem_cons.mp hx with hx | hx
        · subst hx; exact halt
        · exact lt_trans halt (hb x hx)
      · have hba : b < a := by
          rcases lt_trichotomy a b with h1 | h1 | h1
          · exact absurd ((strLt_iff a b).mpr h1) (by simpa using hlt)
          · exact absurd h1 hab
          · exact h1
        simp only [insertSorted, if_neg hab, if_neg hlt]
        refine List.pairwise_cons.mpr ⟨?_, ih ht⟩
        intro x hx
        rcases mem_insertSorted.mp hx with hx | hx
        · subst hx; exact hba
        · exact hb x hx

theorem pairwise_pySortedSet (l : List String) : (pySortedSet l).Pairwise (· < ·) := by
  induction l with
  | nil => simp [pySortedSet]
  | cons a t ih => exact pairwise_insertSorted ih

theorem mem_pySortedSet {x : String} {l : List String} :
    x ∈ pySortedSet l ↔ x ∈ l := by
  induction l with
  | nil => simp [pySortedSet]
  | cons a t ih =>
    show x ∈ insertSorted a (pySortedSet t) ↔ _
    rw [mem_insertSorted, ih]
    simp [List.mem_cons]

theorem sorted_lt_ext : ∀ {l l' : List String}, l.Pairwise (· < ·) → l'.Pairwise (· < ·) →
    (∀ x, x ∈ l ↔ x ∈ l') → l = l'
  | [], [], _, _, _ => rfl
  | [], b :: u, _, _, hm => absurd ((hm b).mpr (List.mem_cons_self _ _)) (List.not_mem_nil b)
  | a :: t, [], _, _, hm => absurd ((hm a).mp (List.mem_cons_self _ _)) (List.not_mem_nil a)
  | a :: t, b :: u, h, h', hm => by
    rcases List.pairwise_cons.mp h with ⟨ha, ht⟩
    rcases List.pairwise_cons.mp h' with ⟨hb, hu⟩
    have hab : a = b := by
      rcases List.mem_cons.mp ((hm a).mp (List.mem_cons_self _ _)) with h1 | h1
      · exact h1
      · rcases List.mem_cons.mp ((hm b).mpr (List.mem_cons_self _ _)) with h2 | h2
        · exact h2.symm
        · exact absurd (lt_trans (hb a h1) (ha b h2)) (lt_irrefl b)
    subst hab
    have htu : ∀ x, x ∈ t ↔ x ∈ u := by
      intro x
      constructor
      · intro hx
        rcases List.mem_cons.mp ((hm x).mp (List.mem_cons.mpr (Or.inr hx))) with h1 | h1
        · exact absurd (h1 ▸ ha x hx) (lt_irrefl a)
        · exact h1
      · intro hx
        rcases List.mem_cons.mp ((hm x).mpr (List.mem_cons.mpr (Or.inr hx))) with h1 | h1
        · exact absurd (h1 ▸ hb x hx) (lt_irrefl a)
        · exact h1
    rw [sorted_lt_ext ht hu htu]

theorem pySortedSet_eq_self {l : List String} (h : l.Pairwise (· < ·)) :
    pySortedSet l = l :=
  sorted_lt_ext (pairwise_pySortedSet l) h (fun _ => mem_pySortedSet)

/-! ## Lemma layer: the rule merge -/

theorem firstIdx_eq_none {p : Rule → Bool} {l : List Rule}
    (h : ∀ r ∈ l, ¬ p r = true) : firstIdx p l = none := by
  induction l with
  | nil => rfl
  | cons r rest ih =>
    have hr : ¬ p r = true := h r (List.mem_cons_self _ _)
    simp only [firstIdx, if_neg hr, ih (fun x hx => h x (List.mem_cons.mpr (Or.inr hx)))]
    rfl

theorem firstIdx_of_first {p : Rule → Bool} :
    ∀ {l : List Rule} {k : Nat} {r₀ : Rule}, l.get? k = some r₀ → p r₀ = true →
    (∀ j r', j < k → l.get? j = some r' → ¬ p r' = true) → firstIdx p l = some k
  | [], k, _, hk, _, _ => by simp at hk
  | r :: rest, 0, r₀, hk, hp, _ => by
    have : r = r₀ := by simpa using hk
    subst this
    simp [firstIdx, hp]
  | r :: rest, k + 1, r₀, hk, hp, hfirst => by
    have hr : ¬ p r = true := hfirst 0 r (Nat.succ_pos k) rfl
    have hrest : firstIdx p rest = some k :=
      firstIdx_of_first (by simpa using hk) hp
        (fun j r' hj hj' => hfirst (j + 1) r' (Nat.succ_lt_succ hj) (by simpa using hj'))
    simp [firstIdx, hr, hrest]

theorem upsertRules_of_absent {rules : List Rule} {d : Rule}
    (h : ∀ r ∈ rules, r.Name ≠ "CLIBlock") :
    upsertRules rules d = d :: rules := by
  unfold upsertRules
  rw [firstIdx_eq_none (fun r hr => by simpa using h r hr)]

theorem upsertRules_of_first {rules : List Rule} {d : Rule} {k : Nat} {r₀ : Rule}
    (hk : rules.get? k = some r₀) (hname : r₀.Name = "CLIBlock")
    (hfirst : ∀ j r', j < k → rules.get? j = some r' → r'.Name ≠ "CLIBlock") :
    upsertRules rules d = rules.set k d := by
  unfold upsertRules
  rw [firstIdx_of_first hk (by simpa using hname)
    (fun j r' hj hj' => by simpa using hfirst j r' hj hj')]

/-! ## Claim C3: insertion case of the rule upsert -/

/-- C3.  Insertion case of the rule upsert: if the fetched policy document
contains no rule named `"CLIBlock"`, then after the merge step the
submitted rule sequence is the desired rule followed by the original
rules: it has `N + 1` rules, the new desired rule is at index 0, and the
original `N` rules appear after it unchanged and in their original
relative order. -/
theorem C3_insert_at_front (rules : List Rule) (stmt : WafStatement)
    (h : ∀ r ∈ rules, r.Name ≠ "CLIBlock") :
    upsertRules rules (desiredRule stmt) = desiredRule stmt :: rules ∧
    (upsertRules rules (desiredRule stmt)).length = rules.length + 1 ∧
    (upsertRules rules (desiredRule stmt)).get? 0 = some (desiredRule stmt) ∧
    ∀ j, (upsertRules rules (desiredRule stmt)).get? (j + 1) = rules.get? j := by
  have he := @upsertRules_of_absent rules (desiredRule stmt) h
  refine ⟨he, ?_, ?_, ?_⟩
  · rw [he]; rfl
  · rw [he]; rfl
  · intro j; rw [he]; rfl

/-- Witness for C3 at a concrete one-rule document. -/
theorem C3_insert_at_front_witness :
    upsertRules [sampleOtherRule] (desiredRule (.IPSetReferenceStatement "arn:ip"))
        = desiredRule (.IPSetReferenceStatement "arn:ip") :: [sampleOtherRule] ∧
    (upsertRules [sampleOtherRule] (desiredRule (.IPSetReferenceStatement "arn:ip"))).length
        = [sampleOtherRule].length + 1 ∧
    (upsertRules [sampleOtherRule] (desiredRule (.IPSetReferenceStatement "arn:ip"))).get? 0
        = some (desiredRule (.IPSetReferenceStatement "arn:ip")) ∧
    ∀ j, (upsertRules [sampleOtherRule]
        (desiredRule (.IPSetReferenceStatement "arn:ip"))).get? (j + 1)
        = [sampleOtherRule].get? j :=
  C3_insert_at_front [sampleOtherRule] (.IPSetReferenceStatement "arn:ip") (by decide)

/-! ## Claim C4: replacement case of the rule upsert -/

/-- C4.  Replacement case of the rule upsert: if the fetched policy
document contains a rule named `"CLIBlock"` at index `k` (the first such
rule — the spec's invariant is that rule names are unique in a document),
then after the merge step the submitted rule sequence still has exactly
`N` rules, the rule at index `k` is the new desired rule, and every other
rule is unchanged at its original position. -/
theorem C4_replace_in_place (rules : List Rule) (stmt : WafStatement) (k : Nat) (r₀ : Rule)
    (hk : rules.get? k = some r₀) (hname : r₀.Name = "CLIBlock")
    (hfirst : ∀ j r', j < k → rules.get? j = some r' → r'.Name ≠ "CLIBlock") :
    upsertRules rules (desiredRule stmt) = rules.set k (desiredRule stmt) ∧
    (upsertRules rules (desiredRule stmt)).length = rules.length ∧
    (upsertRules rules (desiredRule stmt)).get? k = some (desiredRule stmt) ∧
    ∀ j, j ≠ k → (upsertRules rules (desiredRule stmt)).get? j = rules.get? j := by
  have he := @upsertRules_of_first rules (desiredRule stmt) k r₀ hk hname hfirst
  have hklt : k < rules.length := (List.get?_eq_some.mp hk).1
  refine ⟨he, ?_, ?_, ?_⟩
  · rw [he]; exact List.length_set rules k _
  · rw [he]; exact List.get?_set_eq_of_lt _ hklt
  · intro j hj; rw [he]; exact List.get?_set_ne _ _ (fun h => hj h.symm)

/-- Witness for C4 at a concrete two-rule document with the `"CLIBlock"`
rule at index 1. -/
theorem C4_replace_in_place_witness :
    upsertRules [sampleOtherRule, desiredRule (.Opaque "old")]
        (desiredRule (.IPSetReferenceStatement "arn:ip"))
      = [sampleOtherRule, desiredRule (.Opaque "old")].set 1
          (desiredRule (.IPSetReferenceStatement "arn:ip")) ∧
    (upsertRules [sampleOtherRule, desiredRule (.Opaque "old")]
        (desiredRule (.IPSetReferenceStatement "arn:ip"))).length
      = [sampleOtherRule, desiredRule (.Opaque "old")].length ∧
    (upsertRules [sampleOtherRule, desiredRule (.Opaque "old")]
        (desiredRule (.IPSetReferenceStatement "arn:ip"))).get? 1
      = some (desiredRule (.IPSetReferenceStatement "arn:ip")) ∧
    ∀ j, j ≠ 1 → (upsertRules [sampleOtherRule, desiredRule (.Opaque "old")]
        (desiredRule (.IPSetReferenceStatement "arn:ip"))).get? j
      = [sampleOtherRule, desiredRule (.Opaque "old")].get? j :=
  C4_replace_in_place [sampleOtherRule, desiredRule (.Opaque "old")]
    (.IPSetReferenceStatement "arn:ip") 1 (desiredRule (.Opaque "old"))
    (by rfl) (by rfl)
    (by
      intro j r' hj hj'
      interval_cases j
      · simp at hj'
        rw [← hj']
        decide)

/-! ## Claims C6 and C10: ARN parsing -/

theorem parse_error_of_short {arn : String}
    (h : (arnParts arn).length < 4) :
    parse_web_acl_arn arn = .error ("Invalid WebACL ARN: " ++ arn) := by
  have h3 : (arnParts arn)[3]? = none := List.getElem?_eq_none (by omega)
  unfold parse_web_acl_arn
  rcases h2 : (arnParts arn)[2]? with _ | nm <;> simp [h2, h3]

theorem parse_ok_of_long {arn : String}
    (h : 4 ≤ (arnParts arn).length) :
    parse_web_acl_arn arn =
      .ok (if ((arnParts arn).headD []).map Char.toLower = "global".toList
             then "CLOUDFRONT" else "REGIONAL",
           String.mk ((arnParts arn).getD 2 []), String.mk ((arnParts arn).getD 3 [])) := by
  obtain ⟨nm, h2⟩ : ∃ nm, (arnParts arn)[2]? = some nm := by
    rcases hx : (arnParts arn)[2]? with _ | nm
    · exact absurd (List.getElem?_eq_none_iff.mp hx) (by omega)
    · exact ⟨nm, rfl⟩
  obtain ⟨wid, h3⟩ : ∃ wid, (arnParts arn)[3]? = some wid := by
    rcases hx : (arnParts arn)[3]? with _ | wid
    · exact absurd (List.getElem?_eq_none_iff.mp hx) (by omega)
    · exact ⟨wid, rfl⟩
  unfold parse_web_acl_arn
  rw [h2, h3]
  have hg2 : (arnParts arn).getD 2 [] = nm := by
    simp [List.getD_eq_getElem?_getD, h2]
  have hg3 : (arnParts arn).getD 3 [] = wid := by
    simp [List.getD_eq_getElem?_getD, h3]
  rw [hg2, hg3]

/-- C6 (counterexample).  The claim asserts that every input that does not
match the shape `scheme:provider:service:region:account:scope/webacl/name/id`
— in particular one with the wrong segment count — fails to parse.  The
input `"bad/webacl/foo/bar"` contains no colon at all (zero of the five
required colon separators), yet `parse_web_acl_arn` accepts it: Python's
`arn.split(":", 5)[-1]` degrades to the whole string and only the
slash-chunk count is ever checked. -/
theorem C6_counterexample_wrong_segments :
    parse_web_acl_arn "bad/webacl/foo/bar" = .ok ("REGIONAL", "foo", "bar") := by decide

/-- C6 (amended).  Parsing the reference ARN yields Regional scope, name
`"myacl"` and id `"abcd-1234"`; and parsing fails — with a
`MalformedReferenceError` that echoes the offending input — exactly when
the portion after at most five colon splits has fewer than four
slash-separated chunks (e.g. the final segment lacks the id component):
every input whose tail has at least four slash chunks parses
successfully, so a wrong colon-segment count alone is never rejected. -/
theorem C6_parse_web_acl_arn :
    parse_web_acl_arn
        "scheme:provider:service:us-east-1:111111111111:regional/webacl/myacl/abcd-1234"
      = .ok ("REGIONAL", "myacl", "abcd-1234") ∧
    (∀ arn : String, (arnParts arn).length < 4 →
      parse_web_acl_arn arn = .error ("Invalid WebACL ARN: " ++ arn)) ∧
    (∀ arn : String, 4 ≤ (arnParts arn).length →
      ∃ v, parse_web_acl_arn arn = .ok v) ∧
    (∀ arn v, parse_web_acl_arn arn = .ok v → 4 ≤ (arnParts arn).length) := by
  refine ⟨by decide, fun arn h => parse_error_of_short h,
    fun arn h => ⟨_, parse_ok_of_long h⟩, fun arn v hok => ?_⟩
  by_contra hlt
  rw [parse_error_of_short (by omega)] at hok
  cases hok

/-- Witness for C6 at a concrete missing-id input. -/
theorem C6_parse_web_acl_arn_witness :
    parse_web_acl_arn "arn:aws:wafv2:us-east-1:111111111111:regional/webacl/myacl"
      = .error "Invalid WebACL ARN: arn:aws:wafv2:us-east-1:111111111111:regional/webacl/myacl" :=
  C6_parse_web_acl_arn.2.1 _ (by decide)

/-- C10.  Implicit totality of scope decoding: whenever the tail after at
most five colon splits has at least four slash-separated chunks,
`parse_web_acl_arn` succeeds, the name and id are chunks 2 and 3, and the
decoded scope is `"CLOUDFRONT"` (Edge) precisely when the lower-cased
first chunk is `"global"`; every other first chunk — `"regional"` or any
unrecognised value — silently decodes to `"REGIONAL"`. -/
theorem C10_total_scope_decoding (arn : String)
    (h : 4 ≤ (arnParts arn).length) :
    parse_web_acl_arn arn =
      .ok (if ((arnParts arn).headD []).map Char.toLower = "global".toList
             then "CLOUDFRONT" else "REGIONAL",
           String.mk ((arnParts arn).getD 2 []), String.mk ((arnParts arn).getD 3 [])) ∧
    (∀ s n i, parse_web_acl_arn arn = .ok (s, n, i) →
      (s = "CLOUDFRONT" ↔ ((arnParts arn).headD []).map Char.toLower = "global".toList)) := by
  have hok := parse_ok_of_long h
  refine ⟨hok, fun s n i hs => ?_⟩
  rw [hok] at hs
  by_cases hg : ((arnParts arn).headD []).map Char.toLower = "global".toList
  · rw [if_pos hg] at hs
    have hseq : s = "CLOUDFRONT" := by
      have h' := congrArg (fun x => match x with | Except.ok (a, _, _) => a | _ => "") hs
      simpa using h'.symm
    exact iff_of_true hseq hg
  · rw [if_neg hg] at hs
    have hseq : s = "REGIONAL" := by
      have h' := congrArg (fun x => match x with | Except.ok (a, _, _) => a | _ => "") hs
      simpa using h'.symm
    subst hseq
    exact iff_of_false (by decide) hg

/-- Witness for C10 at a concrete unconventional ARN: upper-case `GLOBAL`
scope segment and only three colons. -/
theorem C10_total_scope_decoding_witness :
    parse_web_acl_arn "a:b:c:GLOBAL/webacl/n/i" =
      .ok (if ((arnParts "a:b:c:GLOBAL/webacl/n/i").headD []).map Char.toLower
             = "global".toList
             then "CLOUDFRONT" else "REGIONAL",
           String.mk ((arnParts "a:b:c:GLOBAL/webacl/n/i").getD 2 []),
           String.mk ((arnParts "a:b:c:GLOBAL/webacl/n/i").getD 3 [])) ∧
    (∀ s n i, parse_web_acl_arn "a:b:c:GLOBAL/webacl/n/i" = .ok (s, n, i) →
      (s = "CLOUDFRONT" ↔
        ((arnParts "a:b:c:GLOBAL/webacl/n/i").headD []).map Char.toLower
          = "global".toList)) :=
  C10_total_scope_decoding "a:b:c:GLOBAL/webacl/n/i" (by decide)

/-! ## Claim C8: scope-to-endpoint pinning -/

/-- C8.  Selecting the Edge (`"CLOUDFRONT"`) scope constructs the client
with the fixed explicit region `"us-east-1"`, so the effective region is
`us-east-1` regardless of the ambient region; selecting `"REGIONAL"`
passes no explicit region (`None`), so the ambient region is used
unmodified. -/
theorem C8_scope_region_pinning (ambient : String) :
    waf_client_region "CLOUDFRONT" = some "us-east-1" ∧
    effectiveClientRegion (waf_client_region "CLOUDFRONT") ambient = "us-east-1" ∧
    waf_client_region "REGIONAL" = none ∧
    effectiveClientRegion (waf_client_region "REGIONAL") ambient = ambient := by
  have hc : waf_client_region "CLOUDFRONT" = some "us-east-1" := by decide
  have hr : waf_client_region "REGIONAL" = none := by decide
  refine ⟨hc, ?_, hr, ?_⟩
  · rw [hc]; rfl
  · rw [hr]; rfl

/-! ## Claims C5, C7, C9: the Reference-Set Store Adapter -/

theorem upsert_ipset_probe (env : ProbeEnv) (scope name : String) (values : List String)
    (ex : IPSetSummary)
    (hfind : env.ipSummaries.find? (fun x => x.Name == name) = some ex)
    (hv : values.all (fun a => pyContainsChar a '/') = true) :
    upsert_ipset (probeClient env) scope name values [] =
      (.ok env.ipResp.IPSet.ARN,
       if pySortedSet (env.ipResp.IPSet.Addresses ++ values) = env.ipResp.IPSet.Addresses
       then [.listIPSets scope, .getIPSet name scope ex.Id]
       else [.listIPSets scope, .getIPSet name scope ex.Id,
             .updateIPSet name scope ex.Id
               (pySortedSet (env.ipResp.IPSet.Addresses ++ values)) env.ipResp.LockToken]) := by
  unfold upsert_ipset probeClient
  simp only [hv, not_true_eq_false, if_false, hfind]
  by_cases hm : pySortedSet (env.ipResp.IPSet.Addresses ++ values) = env.ipResp.IPSet.Addresses <;>
    simp [hm]

theorem upsert_regexset_probe (reCompile : String → Except String Unit) (env : ProbeEnv)
    (scope name : String) (patterns : List String) (rex : RegexSetSummary)
    (hfind : env.reSummaries.find? (fun x => x.Name == name) = some rex)
    (hc : ∀ p ∈ patterns, reCompile p = .ok ()) :
    upsert_regexset reCompile (probeClient env) scope name patterns [] =
      (.ok env.reResp.RegexPatternSet.ARN,
       if pySortedSet (env.reResp.RegexPatternSet.RegularExpressionList ++ patterns)
            = env.reResp.RegexPatternSet.RegularExpressionList
       then [.listRegexSets scope, .getRegexSet name scope rex.Id]
       else [.listRegexSets scope, .getRegexSet name scope rex.Id,
             .updateRegexSet name scope rex.Id
               (pySortedSet (env.reResp.RegexPatternSet.RegularExpressionList ++ patterns))
               env.reResp.LockToken]) := by
  have hnone : patterns.findSome?
      (fun p => match reCompile p with | .error m => some m | .ok _ => none) = none := by
    rw [List.findSome?_eq_none]
    intro p hp
    rw [hc p hp]
  unfold upsert_regexset probeClient
  simp only [hnone, hfind]
  by_cases hm : pySortedSet (env.reResp.RegexPatternSet.RegularExpressionList ++ patterns)
      = env.reResp.RegexPatternSet.RegularExpressionList <;>
    simp [hm]

/-- C5.  Reference-set merge protocol, for both adapter instantiations.
For every existing set (one whose name is found among the listed
summaries) and every validated request value set: the upsert computes the
sorted set union of the current values and the requested values (never
removing a value), issues exactly one update — carrying the merged list
and the just-fetched concurrency token — precisely when the merged result
differs from the currently stored list, and in either case returns the
existing set's stored reference identifier unchanged. -/
theorem C5_merge_protocol (env : ProbeEnv) (scope nameIP nameRE : String)
    (values patterns : List String) (reCompile : String → Except String Unit)
    (ex : IPSetSummary) (rex : RegexSetSummary)
    (hip : env.ipSummaries.find? (fun x => x.Name == nameIP) = some ex)
    (hre : env.reSummaries.find? (fun x => x.Name == nameRE) = some rex)
    (hv : values.all (fun a => pyContainsChar a '/') = true)
    (hc : ∀ p ∈ patterns, reCompile p = .ok ()) :
    (upsert_ipset (probeClient env) scope nameIP values [] =
      (.ok env.ipResp.IPSet.ARN,
       if pySortedSet (env.ipResp.IPSet.Addresses ++ values) = env.ipResp.IPSet.Addresses
       then [.listIPSets scope, .getIPSet nameIP scope ex.Id]
       else [.listIPSets scope, .getIPSet nameIP scope ex.Id,
             .updateIPSet nameIP scope ex.Id
               (pySortedSet (env.ipResp.IPSet.Addresses ++ values)) env.ipResp.LockToken])) ∧
    (∀ x ∈ env.ipResp.IPSet.Addresses,
      x ∈ pySortedSet (env.ipResp.IPSet.Addresses ++ values)) ∧
    (∀ x ∈ values, x ∈ pySortedSet (env.ipResp.IPSet.Addresses ++ values)) ∧
    (∀ x ∈ pySortedSet (env.ipResp.IPSet.Addresses ++ values),
      x ∈ env.ipResp.IPSet.Addresses ∨ x ∈ values) ∧
    (upsert_regexset reCompile (probeClient env) scope nameRE patterns [] =
      (.ok env.reResp.RegexPatternSet.ARN,
       if pySortedSet (env.reResp.RegexPatternSet.RegularExpressionList ++ patterns)
            = env.reResp.RegexPatternSet.RegularExpressionList
       then [.listRegexSets scope, .getRegexSet nameRE scope rex.Id]
       else [.listRegexSets scope, .getRegexSet nameRE scope rex.Id,
             .updateRegexSet nameRE scope rex.Id
               (pySortedSet (env.reResp.RegexPatternSet.RegularExpressionList ++ patterns))
               env.reResp.LockToken])) ∧
    (∀ x ∈ env.reResp.RegexPatternSet.RegularExpressionList,
      x ∈ pySortedSet (env.reResp.RegexPatternSet.RegularExpressionList ++ patterns)) ∧
    (∀ x ∈ patterns,
      x ∈ pySortedSet (env.reResp.RegexPatternSet.RegularExpressionList ++ patterns)) ∧
    (∀ x ∈ pySortedSet (env.reResp.RegexPatternSet.RegularExpressionList ++ patterns),
      x ∈ env.reResp.RegexPatternSet.RegularExpressionList ∨ x ∈ patterns) := by
  refine ⟨upsert_ipset_probe env scope nameIP values ex hip hv, ?_, ?_, ?_,
    upsert_regexset_probe reCompile env scope nameRE patterns rex hre hc, ?_, ?_, ?_⟩
  · intro x hx; exact mem_pySortedSet.mpr (List.mem_append.mpr (Or.inl hx))
  · intro x hx; exact mem_pySortedSet.mpr (List.mem_append.mpr (Or.inr hx))
  · intro x hx; exact List.mem_append.mp (mem_pySortedSet.mp hx)
  · intro x hx; exact mem_pySortedSet.mpr (List.mem_append.mpr (Or.inl hx))
  · intro x hx; exact mem_pySortedSet.mpr (List.mem_append.mpr (Or.inr hx))
  · intro x hx; exact List.mem_append.mp (mem_pySortedSet.mp hx)

/-- Witness for C5: both reference sets exist, the merge adds one value
each, and one update per set is issued carrying the merged sorted list and
the fetched token. -/
theorem C5_merge_protocol_witness :
    upsert_ipset (probeClient witnessEnv) "REGIONAL" "cli-block-ips" ["1.2.3.4/32"] [] =
      (.ok "arn:ip:cli-block-ips",
       [.listIPSets "REGIONAL", .getIPSet "cli-block-ips" "REGIONAL" "i1",
        .updateIPSet "cli-block-ips" "REGIONAL" "i1"
          ["1.2.3.4/32", "10.0.0.0/8"] "tok-ip-1"]) ∧
    upsert_regexset witnessCompile (probeClient witnessEnv) "REGIONAL" "cli-block-uri"
        ["^/x"] [] =
      (.ok "arn:re:cli-block-uri",
       [.listRegexSets "REGIONAL", .getRegexSet "cli-block-uri" "REGIONAL" "r1",
        .updateRegexSet "cli-block-uri" "REGIONAL" "r1" ["^/admin", "^/x"] "tok-re-1"]) := by
  have h := C5_merge_protocol witnessEnv "REGIONAL" "cli-block-ips" "cli-block-uri"
    ["1.2.3.4/32"] ["^/x"] witnessCompile
    { Name := "cli-block-ips", Id := "i1" } { Name := "cli-block-uri", Id := "r1" }
    (by decide) (by decide) (by decide) (by decide)
  refine ⟨?_, ?_⟩
  · rw [h.1]; decide
  · rw [h.2.2.2.2.1]; decide

/-- C7.  Pattern validation is exactly regex compilability: the pattern-set
upsert rejects `p` — returning the compiler's own diagnostic, with no
store call recorded at all, mutating or otherwise — precisely when the
compiler fails on `p`; every compilable `p` passes validation and the
upsert completes successfully. -/
theorem C7_pattern_validation (reCompile : String → Except String Unit) (env : ProbeEnv)
    (scope name p : String) :
    (∀ d, reCompile p = .error d →
      upsert_regexset reCompile (probeClient env) scope name [p] [] =
        (.error (.patternError d), [])) ∧
    (reCompile p = .ok () →
      ∃ a log, upsert_regexset reCompile (probeClient env) scope name [p] [] = (.ok a, log)) := by
  constructor
  · intro d hd
    unfold upsert_regexset
    simp [List.findSome?_cons, hd]
  · intro hok
    rcases hfind : env.reSummaries.find? (fun x => x.Name == name) with _ | rex
    · unfold upsert_regexset probeClient
      simp [List.findSome?_cons, hok, hfind]
    · have heq := upsert_regexset_probe reCompile env scope name [p] rex hfind
        (by intro q hq; rw [List.mem_singleton.mp hq]; exact hok)
      rw [heq]
      by_cases hm : pySortedSet (env.reResp.RegexPatternSet.RegularExpressionList ++ [p])
          = env.reResp.RegexPatternSet.RegularExpressionList <;> simp [hm]

/-- Witness for C7: the non-compiling pattern `"("` is rejected with the
compiler's diagnostic before any store call. -/
theorem C7_pattern_validation_witness :
    upsert_regexset witnessCompile (probeClient witnessEnv) "REGIONAL" "cli-block-uri"
        ["("] [] =
      (.error (.patternError "missing ), unterminated subpattern"), []) :=
  (C7_pattern_validation witnessCompile witnessEnv "REGIONAL" "cli-block-uri" "(").1
    "missing ), unterminated subpattern" (by decide)

/-- C9.  Whenever either upsert issues an update to an existing reference
set, the value list it writes is strictly sorted in ascending
lexicographic order and duplicate-free (it is exactly the sorted set
union); consequently, if the currently stored list is content-equal to
the merge result but not sorted, an update is issued even though no new
value was added. -/
theorem C9_sorted_nodup_updates (env : ProbeEnv) (scope nameIP nameRE : String)
    (values patterns : List String) (reCompile : String → Except String Unit)
    (ex : IPSetSummary) (rex : RegexSetSummary)
    (hip : env.ipSummaries.find? (fun x => x.Name == nameIP) = some ex)
    (hre : env.reSummaries.find? (fun x => x.Name == nameRE) = some rex)
    (hv : values.all (fun a => pyContainsChar a '/') = true)
    (hc : ∀ p ∈ patterns, reCompile p = .ok ()) :
    (∀ n s i l t,
      Call.updateIPSet n s i l t ∈ (upsert_ipset (probeClient env) scope nameIP values []).2 →
      l.Pairwise (· < ·) ∧ l.Nodup ∧
        l = pySortedSet (env.ipResp.IPSet.Addresses ++ values)) ∧
    ((∀ x, x ∈ env.ipResp.IPSet.Addresses ↔
        x ∈ pySortedSet (env.ipResp.IPSet.Addresses ++ values)) →
      ¬ env.ipResp.IPSet.Addresses.Pairwise (· < ·) →
      Call.updateIPSet nameIP scope ex.Id
          (pySortedSet (env.ipResp.IPSet.Addresses ++ values)) env.ipResp.LockToken
        ∈ (upsert_ipset (probeClient env) scope nameIP values []).2) ∧
    (∀ n s i l t,
      Call.updateRegexSet n s i l t ∈
          (upsert_regexset reCompile (probeClient env) scope nameRE patterns []).2 →
      l.Pairwise (· < ·) ∧ l.Nodup ∧
        l = pySortedSet (env.reResp.RegexPatternSet.RegularExpressionList ++ patterns)) ∧
    ((∀ x, x ∈ env.reResp.RegexPatternSet.RegularExpressionList ↔
        x ∈ pySortedSet (env.reResp.RegexPatternSet.RegularExpressionList ++ patterns)) →
      ¬ env.reResp.RegexPatternSet.RegularExpressionList.Pairwise (· < ·) →
      Call.updateRegexSet nameRE scope rex.Id
          (pySortedSet (env.reResp.RegexPatternSet.RegularExpressionList ++ patterns))
          env.reResp.LockToken
        ∈ (upsert_regexset reCompile (probeClient env) scope nameRE patterns []).2) := by
  have hipEq := upsert_ipset_probe env scope nameIP values ex hip hv
  have hreEq := upsert_regexset_probe reCompile env scope nameRE patterns rex hre hc
  refine ⟨?_, ?_, ?_, ?_⟩
  · intro n s i l t hmem
    rw [hipEq] at hmem
    by_cases hm : pySortedSet (env.ipResp.IPSet.Addresses ++ values)
        = env.ipResp.IPSet.Addresses
    · rw [if_pos hm] at hmem
      simp at hmem
    · rw [if_neg hm] at hmem
      simp at hmem
      obtain ⟨-, -, -, hl, -⟩ := hmem
      subst hl
      exact ⟨pairwise_pySortedSet _,
        (pairwise_pySortedSet _).imp (fun h => ne_of_lt h), rfl⟩
  · intro hcontent hunsorted
    have hm : pySortedSet (env.ipResp.IPSet.Addresses ++ values)
        ≠ env.ipResp.IPSet.Addresses := by
      intro heq
      exact hunsorted (heq ▸ pairwise_pySortedSet _)
    rw [hipEq, if_neg hm]
    simp
  · intro n s i l t hmem
    rw [hreEq] at hmem
    by_cases hm : pySortedSet (env.reResp.RegexPatternSet.RegularExpressionList ++ patterns)
        = env.reResp.RegexPatternSet.RegularExpressionList
    · rw [if_pos hm] at hmem
      simp at hmem
    · rw [if_neg hm] at hmem
      simp at hmem
      obtain ⟨-, -, -, hl, -⟩ := hmem
      subst hl
      exact ⟨pairwise_pySortedSet _,
        (pairwise_pySortedSet _).imp (fun h => ne_of_lt h), rfl⟩
  · intro hcontent hunsorted
    have hm : pySortedSet (env.reResp.RegexPatternSet.RegularExpressionList ++ patterns)
        ≠ env.reResp.RegexPatternSet.RegularExpressionList := by
      intro heq
      exact hunsorted (heq ▸ pairwise_pySortedSet _)
    rw [hreEq, if_neg hm]
    simp

/-- Witness for C9: requesting the already-present value `"1.2.3.4/32"`
against the out-of-order stored list still issues an update, and the
written list is the sorted duplicate-free union. -/
theorem C9_sorted_nodup_updates_witness :
    Call.updateIPSet "cli-block-ips" "REGIONAL" "i1"
        (pySortedSet (witnessEnvUnsorted.ipResp.IPSet.Addresses ++ ["1.2.3.4/32"]))
        witnessEnvUnsorted.ipResp.LockToken
      ∈ (upsert_ipset (probeClient witnessEnvUnsorted) "REGIONAL" "cli-block-ips"
          ["1.2.3.4/32"] []).2 :=
  (C9_sorted_nodup_updates witnessEnvUnsorted "REGIONAL" "cli-block-ips" "cli-block-uri"
    ["1.2.3.4/32"] [] witnessCompile
    { Name := "cli-block-ips", Id := "i1" } { Name := "cli-block-uri", Id := "r1" }
    (by decide) (by decide) (by decide) (by decide)).2.1
    (by
      have ha : witnessEnvUnsorted.ipResp.IPSet.Addresses
          = ["10.0.0.0/8", "1.2.3.4/32"] := rfl
      have hps : pySortedSet (witnessEnvUnsorted.ipResp.IPSet.Addresses ++ ["1.2.3.4/32"])
          = ["1.2.3.4/32", "10.0.0.0/8"] := by decide
      intro x
      rw [hps, ha]
      simp only [List.mem_cons, List.not_mem_nil, or_false]
      exact or_comm)
    (by
      intro hsorted
      have h1 := (List.pairwise_cons.mp hsorted).1 "1.2.3.4/32" (List.mem_cons_self _ _)
      have h2 : strLt "1.2.3.4/32" "10.0.0.0/8" = true := by decide
      exact absurd h1 (asymm ((strLt_iff _ _).mp h2)))

theorem behaviorClient_get_web_acl (b : StoreBehavior) (x y z : String) (s : CountState) :
    (behaviorClient b).get_web_acl x y z s
      = (b.fetchResp s.fetches, { s with fetches := s.fetches + 1 }) := rfl

theorem behaviorClient_update_web_acl (b : StoreBehavior) (req : UpdateACLReq)
    (s : CountState) :
    (behaviorClient b).update_web_acl req s
      = ((match b.writeResp s.writes with | none => .ok () | some e => .error e),
         { s with writes := s.writes + 1, submitted := s.submitted ++ [req.Rules] }) := rfl

theorem ensure_loop_behavior_counts (b : StoreBehavior) (scope n w : String)
    (ia ra : Option String) :
    ∀ (attempts : List Nat) (s : CountState),
      (ensure_loop (behaviorClient b) scope n w ia ra attempts s).2.fetches
        ≤ s.fetches + attempts.length ∧
      (ensure_loop (behaviorClient b) scope n w ia ra attempts s).2.writes
        ≤ s.writes + attempts.length := by
  intro attempts
  induction attempts with
  | nil => intro s; simp [ensure_loop]
  | cons a rest ih =>
    intro s
    simp only [ensure_loop, behaviorClient_get_web_acl, behaviorClient_update_web_acl]
    rcases hf : b.fetchResp s.fetches with e | acl
    · simp only [hf, List.length_cons]
      omega
    · simp only [hf]
      rcases hb : build_stmt ia ra with m | stmt
      · simp only [hb, List.length_cons]
        omega
      · simp only [hb]
        rcases hw : b.writeResp s.writes with _ | e
        · simp only [hw, List.length_cons]
          omega
        · simp only [hw]
          by_cases hc : e.Code = some "WAFOptimisticLockException" ∧ a = 1
          · rw [if_pos hc]
            have h2 := ih
              { s with fetches := s.fetches + 1, writes := s.writes + 1,
                       submitted := s.submitted ++
                         [upsertRules acl.WebACL.Rules (desiredRule stmt)] }
            simp only [List.length_cons] at h2 ⊢
            omega
          · rw [if_neg hc]
            simp only [List.length_cons]
            omega

/-- C2.  Bounded optimistic-concurrency retry.  For every scripted store
behaviour the engine performs at most two fetch-then-write attempts
(first conjunct, over all behaviours and arguments).  Under a parsable
ARN, a buildable statement and successful fetches: an immediately
successful write finishes with one fetch and one write; a write failing
with code `"WAFOptimisticLockException"` followed by a successful second
write yields overall success with exactly two fetches and two writes; a
conflict on the first attempt followed by any failure on the second —
in particular a second conflict — is fatal with exactly two fetches and
two writes, propagating the second error; and a first-write failure with
any other code propagates immediately with one fetch and one write. -/
theorem C2_bounded_retry (b : StoreBehavior) (scope arn : String)
    (ia ra : Option String) (sa n w : String) (stmt : WafStatement) (a0 a1 : GetACLResp)
    (hpp : parse_web_acl_arn arn = .ok (sa, n, w))
    (hbs : build_stmt ia ra = .ok stmt)
    (hf0 : b.fetchResp 0 = .ok a0) (hf1 : b.fetchResp 1 = .ok a1) :
    (∀ (b' : StoreBehavior) (scope' arn' : String) (ia' ra' : Option String),
        (ensure_block_rule (behaviorClient b') scope' arn' ia' ra'
            { fetches := 0, writes := 0, submitted := [] }).2.fetches ≤ 2 ∧
        (ensure_block_rule (behaviorClient b') scope' arn' ia' ra'
            { fetches := 0, writes := 0, submitted := [] }).2.writes ≤ 2) ∧
    (b.writeResp 0 = none →
      ensure_block_rule (behaviorClient b) scope arn ia ra
          { fetches := 0, writes := 0, submitted := [] }
        = (.ok (),
           { fetches := 1, writes := 1,
             submitted := [upsertRules a0.WebACL.Rules (desiredRule stmt)] })) ∧
    (∀ e1, b.writeResp 0 = some e1 → e1.Code = some "WAFOptimisticLockException" →
      b.writeResp 1 = none →
      ensure_block_rule (behaviorClient b) scope arn ia ra
          { fetches := 0, writes := 0, submitted := [] }
        = (.ok (),
           { fetches := 2, writes := 2,
             submitted := [upsertRules a0.WebACL.Rules (desiredRule stmt),
                           upsertRules a1.WebACL.Rules (desiredRule stmt)] })) ∧
    (∀ e1 e2, b.writeResp 0 = some e1 → e1.Code = some "WAFOptimisticLockException" →
      b.writeResp 1 = some e2 →
      ensure_block_rule (behaviorClient b) scope arn ia ra
          { fetches := 0, writes := 0, submitted := [] }
        = (.error (.clientError e2),
           { fetches := 2, writes := 2,
             submitted := [upsertRules a0.WebACL.Rules (desiredRule stmt),
                           upsertRules a1.WebACL.Rules (desiredRule stmt)] })) ∧
    (∀ e1, b.writeResp 0 = some e1 → e1.Code ≠ some "WAFOptimisticLockException" →
      ensure_block_rule (behaviorClient b) scope arn ia ra
          { fetches := 0, writes := 0, submitted := [] }
        = (.error (.clientError e1),
           { fetches := 1, writes := 1,
             submitted := [upsertRules a0.WebACL.Rules (desiredRule stmt)] })) := by
  refine ⟨?_, ?_, ?_, ?_, ?_⟩
  · intro b' scope' arn' ia' ra'
    unfold ensure_block_rule
    rcases hp' : parse_web_acl_arn arn' with m | res
    · simp [hp']
    · rcases res with ⟨sa', n', w'⟩
      simp only [hp']
      have h := ensure_loop_behavior_counts b' scope' n' w' ia' ra' [1, 2]
        { fetches := 0, writes := 0, submitted := [] }
      simpa using h
  · intro hw0
    simp only [ensure_block_rule, hpp]
    simp only [ensure_loop, behaviorClient_get_web_acl, behaviorClient_update_web_acl]
    simp [hf0, hw0, hbs]
  · intro e1 hw0 hcode hw1
    simp only [ensure_block_rule, hpp]
    simp only [ensure_loop, behaviorClient_get_web_acl, behaviorClient_update_web_acl]
    simp [hf0, hf1, hw0, hw1, hbs, hcode]
  · intro e1 e2 hw0 hcode hw1
    simp only [ensure_block_rule, hpp]
    simp only [ensure_loop, behaviorClient_get_web_acl, behaviorClient_update_web_acl]
    simp [hf0, hf1, hw0, hw1, hbs, hcode]
  · intro e1 hw0 hcode
    simp only [ensure_block_rule, hpp]
    simp only [ensure_loop, behaviorClient_get_web_acl, behaviorClient_update_web_acl]
    simp [hf0, hw0, hbs, hcode]

/-- Witness for C2: a conflict on attempt 1 followed by success on
attempt 2 gives overall success with exactly two fetches and two write
attempts. -/
theorem C2_bounded_retry_witness :
    ensure_block_rule (behaviorClient conflictOnceBehavior) "REGIONAL"
        "a:b:c:d:e:regional/webacl/acl/aclid" (some "arn:x") none
        { fetches := 0, writes := 0, submitted := [] }
      = (.ok (),
         { fetches := 2, writes := 2,
           submitted := [upsertRules witnessEnv.aclResp.WebACL.Rules
                           (desiredRule (.IPSetReferenceStatement "arn:x")),
                         upsertRules witnessEnv.aclResp.WebACL.Rules
                           (desiredRule (.IPSetReferenceStatement "arn:x"))] }) :=
  (C2_bounded_retry conflictOnceBehavior "REGIONAL" "a:b:c:d:e:regional/webacl/acl/aclid"
      (some "arn:x") none "REGIONAL" "acl" "aclid" (.IPSetReferenceStatement "arn:x")
      witnessEnv.aclResp witnessEnv.aclResp (by decide) (by decide) rfl rfl).2.2.1
    { Code := some "WAFOptimisticLockException" } rfl rfl rfl

theorem firstIdx_none_iff {p : Rule → Bool} {l : List Rule} :
    firstIdx p l = none ↔ ∀ r ∈ l, ¬ p r = true := by
  induction l with
  | nil => simp [firstIdx]
  | cons r rest ih =>
    by_cases hr : p r = true
    · simp [firstIdx, hr]
    · simp [firstIdx, hr, ih]

theorem firstIdx_some {p : Rule → Bool} :
    ∀ {l : List Rule} {i : Nat}, firstIdx p l = some i →
      ∃ r, l.get? i = some r ∧ p r = true := by
  intro l
  induction l with
  | nil => intro i h; simp [firstIdx] at h
  | cons r rest ih =>
    intro i h
    by_cases hr : p r = true
    · simp [firstIdx, hr] at h
      subst h
      exact ⟨r, rfl, hr⟩
    · simp [firstIdx, hr] at h
      rcases h with ⟨j, hj, rfl⟩
      rcases ih hj with ⟨r', hr', hp'⟩
      exact ⟨r', by simpa using hr', hp'⟩

theorem firstIdx_min {p : Rule → Bool} :
    ∀ {l : List Rule} {i : Nat}, firstIdx p l = some i →
      ∀ j r, j < i → l.get? j = some r → ¬ p r = true := by
  intro l
  induction l with
  | nil => intro i h; simp [firstIdx] at h
  | cons r rest ih =>
    intro i h j r' hj hj'
    by_cases hr : p r = true
    · simp [firstIdx, hr] at h
      omega
    · simp [firstIdx, hr] at h
      rcases h with ⟨k, hk, rfl⟩
      rcases j with _ | j
      · simp at hj'
        rw [← hj']
        exact hr
      · exact ih hk j r' (by omega) (by simpa using hj')

theorem countCLIBlock_cons_pos {r : Rule} {rest : List Rule} (h : r.Name == "CLIBlock") :
    countCLIBlock (r :: rest) = countCLIBlock rest + 1 := by
  simp [countCLIBlock, List.filter_cons, h]

theorem countCLIBlock_cons_neg {r : Rule} {rest : List Rule} (h : ¬ r.Name == "CLIBlock") :
    countCLIBlock (r :: rest) = countCLIBlock rest := by
  simp [countCLIBlock, List.filter_cons, h]

theorem countCLIBlock_set :
    ∀ (l : List Rule) (i : Nat) (d r : Rule), l.get? i = some r →
      (r.Name == "CLIBlock") = (d.Name == "CLIBlock") →
      countCLIBlock (l.set i d) = countCLIBlock l := by
  intro l
  induction l with
  | nil => intro i d r h; simp at h
  | cons a rest ih =>
    intro i d r hget hsame
    rcases i with _ | i
    · simp at hget
      subst hget
      by_cases ha : a.Name == "CLIBlock"
      · rw [List.set_cons_zero, countCLIBlock_cons_pos (hsame ▸ ha),
          countCLIBlock_cons_pos ha]
      · rw [List.set_cons_zero, countCLIBlock_cons_neg (hsame ▸ ha),
          countCLIBlock_cons_neg ha]
    · rw [List.set_cons_succ]
      by_cases ha : a.Name == "CLIBlock"
      · rw [countCLIBlock_cons_pos ha, countCLIBlock_cons_pos ha,
          ih i d r (by simpa using hget) hsame]
      · rw [countCLIBlock_cons_neg ha, countCLIBlock_cons_neg ha,
          ih i d r (by simpa using hget) hsame]

theorem countCLIBlock_zero_of_absent {l : List Rule}
    (h : ∀ r ∈ l, ¬ (r.Name == "CLIBlock") = true) : countCLIBlock l = 0 := by
  simp [countCLIBlock, List.filter_eq_nil_iff.mpr h]

theorem one_le_countCLIBlock {l : List Rule} {i : Nat}
    (h : firstIdx (fun r => r.Name == "CLIBlock") l = some i) : 1 ≤ countCLIBlock l := by
  rcases firstIdx_some h with ⟨r, hget, hp⟩
  have hmem : r ∈ l := by
    rcases List.get?_eq_some.mp hget with ⟨hlt, hval⟩
    rw [← hval]
    exact List.get_mem l _ _
  have : r ∈ l.filter (fun r => r.Name == "CLIBlock") := List.mem_filter.mpr ⟨hmem, hp⟩
  have := List.length_pos.mpr (List.ne_nil_of_mem this)
  simpa [countCLIBlock] using this

/-- After one merge with a `"CLIBlock"`-named desired rule, a sequence
with at most one `"CLIBlock"` rule has exactly one. -/
theorem countCLIBlock_upsertRules (rules : List Rule) (d : Rule)
    (hd : d.Name = "CLIBlock") (h : countCLIBlock rules ≤ 1) :
    countCLIBlock (upsertRules rules d) = 1 := by
  unfold upsertRules
  rcases hfi : firstIdx (fun r => r.Name == "CLIBlock") rules with _ | i
  · have habs := firstIdx_none_iff.mp hfi
    rw [countCLIBlock_cons_pos (by simpa using hd), countCLIBlock_zero_of_absent habs]
  · rcases firstIdx_some hfi with ⟨r, hget, hp⟩
    rw [countCLIBlock_set rules i d r hget (by simp_all)]
    have := one_le_countCLIBlock hfi
    omega

theorem upsertRules_eq_of_none {rules : List Rule} {d : Rule}
    (hfi : firstIdx (fun r => r.Name == "CLIBlock") rules = none) :
    upsertRules rules d = d :: rules := by
  unfold upsertRules
  rw [hfi]

theorem upsertRules_eq_of_some {rules : List Rule} {d : Rule} {i : Nat}
    (hfi : firstIdx (fun r => r.Name == "CLIBlock") rules = some i) :
    upsertRules rules d = rules.set i d := by
  unfold upsertRules
  rw [hfi]

/-- Merging the same desired rule twice is the same as merging it once. -/
theorem upsertRules_idem (rules : List Rule) (d : Rule) (hd : d.Name = "CLIBlock") :
    upsertRules (upsertRules rules d) d = upsertRules rules d := by
  have hpd : (fun r => r.Name == "CLIBlock") d = true := by simpa using hd
  rcases hfi : firstIdx (fun r => r.Name == "CLIBlock") rules with _ | i
  · rw [upsertRules_eq_of_none hfi]
    have h0 : firstIdx (fun r => r.Name == "CLIBlock") (d :: rules) = some 0 := by
      simp [firstIdx, hpd]
    rw [upsertRules_eq_of_some h0, List.set_cons_zero]
  · rcases firstIdx_some hfi with ⟨r, hget, hp⟩
    have hlt : i < rules.length := (List.get?_eq_some.mp hget).1
    rw [upsertRules_eq_of_some hfi]
    have hseti : firstIdx (fun r => r.Name == "CLIBlock") (rules.set i d) = some i := by
      refine firstIdx_of_first (List.get?_set_eq_of_lt d hlt) hpd ?_
      intro j r' hj hj'
      have := firstIdx_min hfi j r' hj (by rwa [List.get?_set_ne d rules (by omega)] at hj')
      simpa using this
    rw [upsertRules_eq_of_some hseti, List.set_set]

theorem lookupIPSet_props {st : Store} {scope name : String} {x : StoredIPSet}
    (h : lookupIPSet st scope name = some x) : x.Name = name ∧ x.Scope = scope := by
  unfold lookupIPSet at h
  have h1 := List.find?_some h
  have h2 := (List.mem_filter.mp (List.find?_mem h)).2
  exact ⟨by simpa using h1, by simpa using h2⟩

theorem find_ipKey_of_lookup {scope name : String} :
    ∀ {l : List StoredIPSet} {x : StoredIPSet},
      (l.filter (fun y => y.Scope == scope)).find? (fun y => y.Name == name) = some x →
      l.find? (ipKey name scope x.Id) = some x := by
  intro l
  induction l with
  | nil => intro x h; simp at h
  | cons y t ih =>
    intro x h
    by_cases hsc : y.Scope == scope
    · simp only [List.filter_cons, hsc, if_true] at h
      by_cases hnm : y.Name == name
      · simp only [List.find?_cons, hnm] at h
        have hxy : y = x := by simpa using h
        subst hxy
        have hkey : ipKey name scope y.Id y = true := by
          simp [ipKey, hsc, hnm]
        simp [List.find?_cons, hkey]
      · simp only [List.find?_cons, hnm] at h
        have hkey : ipKey name scope x.Id y = false := by
          simp only [ipKey, Bool.and_eq_false_iff]
          left; left
          simpa using hnm
        simp only [List.find?_cons, hkey]
        exact ih h
    · simp only [List.filter_cons, hsc, if_false] at h
      have hkey : ipKey name scope x.Id y = false := by
        simp only [ipKey, Bool.and_eq_false_iff]
        left; right
        simpa using hsc
      simp only [List.find?_cons, hkey]
      exact ih h

theorem updFirst_mem {α : Type} (q : α → Bool) (f : α → α) :
    ∀ {l : List α} {z : α}, z ∈ updFirst q f l → z ∈ l ∨ ∃ y ∈ l, z = f y := by
  intro l
  induction l with
  | nil => intro z h; simp [updFirst] at h
  | cons y t ih =>
    intro z h
    by_cases hq : q y = true
    · simp only [updFirst, hq, if_true] at h
      rcases List.mem_cons.mp h with h | h
      · exact Or.inr ⟨y, List.mem_cons_self _ _, h⟩
      · exact Or.inl (List.mem_cons.mpr (Or.inr h))
    · simp only [updFirst, hq, if_false] at h
      rcases List.mem_cons.mp h with h | h
      · exact Or.inl (List.mem_cons.mpr (Or.inl h))
      · rcases ih h with h | ⟨y', hy', hz⟩
        · exact Or.inl (List.mem_cons.mpr (Or.inr h))
        · exact Or.inr ⟨y', List.mem_cons.mpr (Or.inr hy'), hz⟩

theorem updFirst_cons_pos {α : Type} {q : α → Bool} {f : α → α} {y : α} {t : List α}
    (h : q y = true) : updFirst q f (y :: t) = f y :: t := by
  simp [updFirst, h]

theorem updFirst_cons_neg {α : Type} {q : α → Bool} {f : α → α} {y : α} {t : List α}
    (h : q y = false) : updFirst q f (y :: t) = y :: updFirst q f t := by
  simp [updFirst, h]

theorem lookup_updFirst_of_lookup {scope name : String} (f : StoredIPSet → StoredIPSet)
    (hfn : ∀ y, (f y).Name = y.Name) (hfs : ∀ y, (f y).Scope = y.Scope) :
    ∀ {l : List StoredIPSet} {x : StoredIPSet},
      (l.filter (fun y => y.Scope == scope)).find? (fun y => y.Name == name) = some x →
      ((updFirst (ipKey name scope x.Id) f l).filter
          (fun y => y.Scope == scope)).find? (fun y => y.Name == name) = some (f x) := by
  intro l
  induction l with
  | nil => intro x h; simp at h
  | cons y t ih =>
    intro x h
    by_cases hsc : y.Scope == scope
    · rw [List.filter_cons, if_pos hsc] at h
      by_cases hnm : y.Name == name
      · simp only [List.find?_cons, hnm] at h
        have hxy : y = x := by simpa using h
        subst hxy
        have hkey : ipKey name scope y.Id y = true := by
          simp [ipKey, hsc, hnm]
        rw [updFirst_cons_pos hkey]
        have hfsc : ((f y).Scope == scope) = true := by
          rw [hfs y]; exact hsc
        have hfnm : ((f y).Name == name) = true := by
          rw [hfn y]; exact hnm
        rw [List.filter_cons, if_pos hfsc]
        simp [List.find?_cons, hfnm]
      · simp only [List.find?_cons, hnm] at h
        have hkey : ipKey name scope x.Id y = false := by
          simp only [ipKey, Bool.and_eq_false_iff]
          left; left
          simpa using hnm
        rw [updFirst_cons_neg hkey]
        rw [List.filter_cons, if_pos hsc]
        simp only [List.find?_cons, hnm]
        exact ih h
    · rw [List.filter_cons, if_neg hsc] at h
      have hkey : ipKey name scope x.Id y = false := by
        simp only [ipKey, Bool.and_eq_false_iff]
        left; right
        simpa using hsc
      rw [updFirst_cons_neg hkey]
      rw [List.filter_cons, if_neg hsc]
      exact ih h

theorem lookup_append_new {scope name : String} {l : List StoredIPSet} {new : StoredIPSet}
    (hnone : (l.filter (fun y => y.Scope == scope)).find? (fun y => y.Name == name) = none)
    (hn : new.Name = name) (hs : new.Scope = scope) :
    (((l ++ [new]).filter (fun y => y.Scope == scope)).find?
        (fun y => y.Name == name)) = some new := by
  rw [List.filter_append, List.find?_append, hnone]
  have h1 : (new.Scope == scope) = true := by simpa using hs
  have h2 : (new.Name == name) = true := by simpa using hn
  simp [List.filter_cons, h1, List.find?_cons, h2]

theorem storeClient_list_ip_sets (scope : String) (s : Store) :
    storeClient.list_ip_sets scope s
      = (.ok ((s.ipsets.filter (fun x => x.Scope == scope)).map
          (fun x => { Name := x.Name, Id := x.Id })), s) := rfl

theorem storeClient_get_ip_set (name scope id : String) (s : Store) :
    storeClient.get_ip_set name scope id s
      = (match s.ipsets.find? (ipKey name scope id) with
         | some x =>
           (.ok { IPSet := { Addresses := x.Addresses, ARN := x.ARN },
                  LockToken := toString x.LockToken }, s)
         | none => (.error { Code := some "WAFNonexistentItemException" }, s)) := rfl

theorem storeClient_update_ip_set (name scope id : String) (addrs : List String)
    (tok : String) (s : Store) :
    storeClient.update_ip_set name scope id addrs tok s
      = (match s.ipsets.find? (ipKey name scope id) with
         | some x =>
           if tok == toString x.LockToken then
             (.ok (), { s with ipsets :=
               (updFirst (ipKey name scope id)
                 (fun y => { y with Addresses := addrs, LockToken := y.LockToken + 1 })
                 s.ipsets) })
           else (.error { Code := some "WAFOptimisticLockException" }, s)
         | none => (.error { Code := some "WAFNonexistentItemException" }, s)) := rfl

theorem storeClient_create_ip_set (name scope : String) (addrs : List String)
    (v : String) (s : Store) :
    storeClient.create_ip_set name scope addrs v s
      = (.ok { Summary := { ARN := mkIPSetARN name s.nextId } },
         { s with
            ipsets := s.ipsets ++
              [{ Name := name, Scope := scope, Id := "id" ++ toString s.nextId,
                 Addresses := addrs, ARN := mkIPSetARN name s.nextId, LockToken := 0 }],
            nextId := s.nextId + 1 }) := rfl

theorem mkIPSetARN_ne_empty (name : String) (n : Nat) : mkIPSetARN name n ≠ "" := by
  intro h
  have hlen := congrArg String.length h
  rw [mkIPSetARN] at hlen
  simp [String.length_append] at hlen
  exact absurd hlen.1.1.1 (by decide)

theorem upsert_ipset_store_stable (st' : Store) (scope name ip : String) (y : StoredIPSet)
    (hip : pyContainsChar ip '/' = true)
    (hlk : lookupIPSet st' scope name = some y)
    (hpw : y.Addresses.Pairwise (· < ·)) (hmem : ip ∈ y.Addresses) :
    upsert_ipset storeClient scope name [ip] st' = (.ok y.ARN, st') := by
  obtain ⟨hnm, hsc⟩ := lookupIPSet_props hlk
  have hfind := find_ipKey_of_lookup hlk
  have hmerge : pySortedSet (y.Addresses ++ [ip]) = y.Addresses := by
    apply sorted_lt_ext (pairwise_pySortedSet _) hpw
    intro z
    rw [mem_pySortedSet, List.mem_append, List.mem_singleton]
    constructor
    · rintro (hz | rfl)
      · exact hz
      · exact hmem
    · exact Or.inl
  unfold upsert_ipset
  rw [storeClient_list_ip_sets]
  have hval : ([ip].all (fun a => pyContainsChar a '/')) = true := by simp [hip]
  rw [if_neg (by simp [hval])]
  dsimp only
  rw [List.find?_map]
  unfold lookupIPSet at hlk
  have hcomp : ((fun x : IPSetSummary => x.Name == name) ∘
      (fun x : StoredIPSet => ({ Name := x.Name, Id := x.Id } : IPSetSummary)))
      = (fun x : StoredIPSet => x.Name == name) := rfl
  rw [hcomp, hlk]
  rw [show Option.map (fun x : StoredIPSet => ({ Name := x.Name, Id := x.Id } : IPSetSummary))
        (some y) = some { Name := y.Name, Id := y.Id } from rfl]
  dsimp only
  rw [storeClient_get_ip_set, hfind]
  dsimp only
  rw [if_pos hmerge]

theorem mem_of_lookupIPSet {st : Store} {scope name : String} {x : StoredIPSet}
    (h : lookupIPSet st scope name = some x) : x ∈ st.ipsets := by
  unfold lookupIPSet at h
  exact (List.mem_filter.mp (List.mem_of_find?_eq_some h)).1

theorem upsert_ipset_store_spec (st : Store) (scope name ip : String)
    (hip : pyContainsChar ip '/' = true)
    (harn : ∀ x ∈ st.ipsets, x.Name = name → x.ARN ≠ "") :
    ∃ A st₁ y,
      upsert_ipset storeClient scope name [ip] st = (.ok A, st₁) ∧
      st₁.acl = st.acl ∧
      lookupIPSet st₁ scope name = some y ∧
      y.ARN = A ∧ A ≠ "" ∧
      y.Addresses.Pairwise (· < ·) ∧ ip ∈ y.Addresses ∧
      (∀ x ∈ st₁.ipsets, x.Name = name → x.ARN ≠ "") ∧
      (∀ st' : Store, st'.ipsets = st₁.ipsets →
        upsert_ipset storeClient scope name [ip] st' = (.ok A, st')) := by
  have hval : ([ip].all (fun a => pyContainsChar a '/')) = true := by simp [hip]
  have hcomp : ((fun x : IPSetSummary => x.Name == name) ∘
      (fun x : StoredIPSet => ({ Name := x.Name, Id := x.Id } : IPSetSummary)))
      = (fun x : StoredIPSet => x.Name == name) := rfl
  rcases hlk : lookupIPSet st scope name with _ | x
  · -- no set with this name in this scope: the create path
    have hrun : upsert_ipset storeClient scope name [ip] st =
        (.ok (mkIPSetARN name st.nextId),
         { st with
            ipsets := st.ipsets ++
              [{ Name := name, Scope := scope, Id := "id" ++ toString st.nextId,
                 Addresses := [ip], ARN := mkIPSetARN name st.nextId, LockToken := 0 }],
            nextId := st.nextId + 1 }) := by
      unfold upsert_ipset
      rw [storeClient_list_ip_sets]
      rw [if_neg (by simp [hval])]
      dsimp only
      rw [List.find?_map, hcomp]
      unfold lookupIPSet at hlk
      rw [hlk]
      dsimp only [Option.map_none']
      rw [storeClient_create_ip_set]
    refine ⟨mkIPSetARN name st.nextId, _,
      { Name := name, Scope := scope, Id := "id" ++ toString st.nextId,
        Addresses := [ip], ARN := mkIPSetARN name st.nextId, LockToken := 0 },
      hrun, rfl, ?_, rfl, mkIPSetARN_ne_empty name st.nextId, ?_, ?_, ?_, ?_⟩
    · unfold lookupIPSet at hlk ⊢
      exact lookup_append_new hlk rfl rfl
    · exact List.pairwise_singleton _ _
    · exact List.mem_singleton_self ip
    · intro z hz hn
      rcases List.mem_append.mp hz with hz | hz
      · exact harn z hz hn
      · have hznew : z =
            { Name := name, Scope := scope, Id := "id" ++ toString st.nextId,
              Addresses := [ip], ARN := mkIPSetARN name st.nextId, LockToken := 0 } := by
          simpa using hz
        rw [hznew]
        exact mkIPSetARN_ne_empty name st.nextId
    · intro st' hips
      refine upsert_ipset_store_stable st' scope name ip
        { Name := name, Scope := scope, Id := "id" ++ toString st.nextId,
          Addresses := [ip], ARN := mkIPSetARN name st.nextId, LockToken := 0 }
        hip ?_ (List.pairwise_singleton _ _) (List.mem_singleton_self ip)
      unfold lookupIPSet at hlk ⊢
      rw [hips]
      exact lookup_append_new hlk rfl rfl
  · -- the set exists: fetch, merge, maybe update
    obtain ⟨hnm, hsc⟩ := lookupIPSet_props hlk
    have hfind := find_ipKey_of_lookup hlk
    have hxmem : x ∈ st.ipsets := mem_of_lookupIPSet hlk
    have hxarn : x.ARN ≠ "" := harn x hxmem hnm
    by_cases hm : pySortedSet (x.Addresses ++ [ip]) = x.Addresses
    · -- merge adds nothing: no update issued
      have hrun : upsert_ipset storeClient scope name [ip] st = (.ok x.ARN, st) := by
        unfold upsert_ipset
        rw [storeClient_list_ip_sets]
        rw [if_neg (by simp [hval])]
        dsimp only
        rw [List.find?_map, hcomp]
        unfold lookupIPSet at hlk
        rw [hlk]
        rw [show Option.map
              (fun x : StoredIPSet => ({ Name := x.Name, Id := x.Id } : IPSetSummary))
              (some x) = some { Name := x.Name, Id := x.Id } from rfl]
        dsimp only
        rw [storeClient_get_ip_set, hfind]
        dsimp only
        rw [if_pos hm]
      refine ⟨x.ARN, st, x, hrun, rfl, hlk, rfl, hxarn, ?_, ?_, harn, ?_⟩
      · rw [← hm]; exact pairwise_pySortedSet _
      · rw [← hm]
        exact mem_pySortedSet.mpr (List.mem_append.mpr (Or.inr (List.mem_singleton_self ip)))
      · intro st' hips
        refine upsert_ipset_store_stable st' scope name ip x hip ?_ ?_ ?_
        · unfold lookupIPSet at hlk ⊢
          rw [hips]
          exact hlk
        · rw [← hm]; exact pairwise_pySortedSet _
        · rw [← hm]
          exact mem_pySortedSet.mpr (List.mem_append.mpr (Or.inr (List.mem_singleton_self ip)))
    · -- merge differs: one update is issued under the fetched token
      have hrun : upsert_ipset storeClient scope name [ip] st =
          (.ok x.ARN,
           { st with ipsets :=
              (updFirst (ipKey name scope x.Id)
                (fun y => { y with Addresses := pySortedSet (x.Addresses ++ [ip]),
                                   LockToken := y.LockToken + 1 })
                st.ipsets) }) := by
        unfold upsert_ipset
        rw [storeClient_list_ip_sets]
        rw [if_neg (by simp [hval])]
        dsimp only
        rw [List.find?_map, hcomp]
        unfold lookupIPSet at hlk
        rw [hlk]
        rw [show Option.map
              (fun x : StoredIPSet => ({ Name := x.Name, Id := x.Id } : IPSetSummary))
              (some x) = some { Name := x.Name, Id := x.Id } from rfl]
        dsimp only
        rw [storeClient_get_ip_set, hfind]
        dsimp only
        rw [if_neg hm]
        rw [storeClient_update_ip_set, hfind]
        dsimp only
        rw [if_pos (show (toString x.LockToken == toString x.LockToken) = true by simp)]
      refine ⟨x.ARN, _,
        { x with Addresses := pySortedSet (x.Addresses ++ [ip]),
                 LockToken := x.LockToken + 1 },
        hrun, rfl, ?_, rfl, hxarn, pairwise_pySortedSet _,
        mem_pySortedSet.mpr (List.mem_append.mpr (Or.inr (List.mem_singleton_self ip))),
        ?_, ?_⟩
      · unfold lookupIPSet at hlk ⊢
        exact lookup_updFirst_of_lookup
          (fun y => { y with Addresses := pySortedSet (x.Addresses ++ [ip]),
                             LockToken := y.LockToken + 1 })
          (fun y => rfl) (fun y => rfl) hlk
      · intro z hz
        rcases updFirst_mem _ _ hz with hz' | ⟨y', hy', rfl⟩
        · exact harn z hz'
        · intro hn'
          exact harn y' hy' hn'
      · intro st' hips
        refine upsert_ipset_store_stable st' scope name ip
          { x with Addresses := pySortedSet (x.Addresses ++ [ip]),
                   LockToken := x.LockToken + 1 }
          hip ?_ (pairwise_pySortedSet _)
          (mem_pySortedSet.mpr (List.mem_append.mpr (Or.inr (List.mem_singleton_self ip))))
        unfold lookupIPSet at hlk ⊢
        rw [hips]
        exact lookup_updFirst_of_lookup
          (fun y => { y with Addresses := pySortedSet (x.Addresses ++ [ip]),
                             LockToken := y.LockToken + 1 })
          (fun y => rfl) (fun y => rfl) hlk

theorem storeClient_get_web_acl (name scope id : String) (s : Store) :
    storeClient.get_web_acl name scope id s
      = (if s.acl.Name == name && s.acl.Scope == scope && s.acl.Id == id then
          (.ok { WebACL :=
                   { Name := s.acl.Name, Id := s.acl.Id,
                     DefaultAction := s.acl.DefaultAction,
                     VisibilityConfig := s.acl.VisibilityConfig, Rules := s.acl.Rules },
                 LockToken := toString s.acl.LockToken }, s)
         else (.error { Code := some "WAFNonexistentItemException" }, s)) := rfl

theorem storeClient_update_web_acl (req : UpdateACLReq) (s : Store) :
    storeClient.update_web_acl req s
      = (if s.acl.Name == req.Name && s.acl.Scope == req.Scope && s.acl.Id == req.Id then
          if req.LockToken == toString s.acl.LockToken then
            (.ok (), { s with acl := { s.acl with
                DefaultAction := req.DefaultAction,
                VisibilityConfig := req.VisibilityConfig,
                Rules := req.Rules,
                LockToken := s.acl.LockToken + 1 } })
          else (.error { Code := some "WAFOptimisticLockException" }, s)
         else (.error { Code := some "WAFNonexistentItemException" }, s)) := rfl

theorem build_stmt_ip {A : String} (hA : A ≠ "") :
    build_stmt (some A) none = .ok (.IPSetReferenceStatement A) := by
  have ht : pyTruthy (some A) = true := by
    simp [pyTruthy, hA]
  simp [build_stmt, ht]

theorem ensure_block_rule_store (st : Store) (scope arn A sa : String)
    (hA : A ≠ "")
    (hparse : parse_web_acl_arn arn = .ok (sa, st.acl.Name, st.acl.Id))
    (hscope : st.acl.Scope = scope) :
    ensure_block_rule storeClient scope arn (some A) none st =
      (.ok (),
       { st with acl := { st.acl with
           DefaultAction := st.acl.DefaultAction,
           VisibilityConfig := st.acl.VisibilityConfig,
           Rules := upsertRules st.acl.Rules (desiredRule (.IPSetReferenceStatement A)),
           LockToken := st.acl.LockToken + 1 } }) := by
  unfold ensure_block_rule
  rw [hparse]
  dsimp only
  rw [show ([1, 2] : List Nat) = 1 :: [2] from rfl]
  unfold ensure_loop
  rw [storeClient_get_web_acl]
  rw [if_pos (by simp [hscope])]
  dsimp only
  rw [build_stmt_ip hA]
  dsimp only
  rw [storeClient_update_web_acl]
  rw [if_pos (by simp [hscope])]
  rw [if_pos (by simp)]

/-- C1.  Idempotence of the whole address-block path against the honest
operational store: both runs succeed; after the second run the reference
set named `"cli-block-ips"` contains exactly one occurrence of the CIDR,
the policy document contains exactly one rule named `"CLIBlock"`, and the
second run leaves the entire rule sequence — content and positions — 
exactly as the first run left it.  Hypotheses: the CIDR contains a slash,
the ARN parses to the stored document's name and id, the operator scope
matches the stored document's scope, stored reference identifiers are
non-empty, and the fetched document satisfies the spec's invariant of at
most one rule per name. -/
theorem C1_idempotent_address_block (st : Store) (scope arn ip sa : String)
    (hip : pyContainsChar ip '/' = true)
    (hparse : parse_web_acl_arn arn = .ok (sa, st.acl.Name, st.acl.Id))
    (hscope : st.acl.Scope = scope)
    (harn : ∀ x ∈ st.ipsets, x.Name = "cli-block-ips" → x.ARN ≠ "")
    (hcli : countCLIBlock st.acl.Rules ≤ 1) :
    ∃ st₁ st₂,
      push_block_ip scope arn ip st = (.ok (), st₁) ∧
      push_block_ip scope arn ip st₁ = (.ok (), st₂) ∧
      (∃ y, lookupIPSet st₂ scope "cli-block-ips" = some y ∧
        y.Addresses.count ip = 1) ∧
      countCLIBlock st₂.acl.Rules = 1 ∧
      st₂.acl.Rules = st₁.acl.Rules := by
  obtain ⟨A, s1, y, hrun1, hacl1, hlk1, hyarn, hAne, hpw, hmem, harn1, hstable⟩ :=
    upsert_ipset_store_spec st scope "cli-block-ips" ip hip harn
  have hens1 := ensure_block_rule_store s1 scope arn A sa hAne
    (by rw [hacl1]; exact hparse) (by rw [hacl1]; exact hscope)
  have hpush1 : push_block_ip scope arn ip st =
      (.ok (), { s1 with acl := { s1.acl with
          DefaultAction := s1.acl.DefaultAction,
          VisibilityConfig := s1.acl.VisibilityConfig,
          Rules := upsertRules s1.acl.Rules (desiredRule (.IPSetReferenceStatement A)),
          LockToken := s1.acl.LockToken + 1 } }) := by
    unfold push_block_ip
    rw [hrun1]
    exact hens1
  set stE1 : Store := { s1 with acl := { s1.acl with
      DefaultAction := s1.acl.DefaultAction,
      VisibilityConfig := s1.acl.VisibilityConfig,
      Rules := upsertRules s1.acl.Rules (desiredRule (.IPSetReferenceStatement A)),
      LockToken := s1.acl.LockToken + 1 } } with hstE1
  have hrun2 : upsert_ipset storeClient scope "cli-block-ips" [ip] stE1 = (.ok A, stE1) :=
    hstable stE1 rfl
  have hens2 := ensure_block_rule_store stE1 scope arn A sa hAne
    (by
      have h1 : stE1.acl.Name = st.acl.Name := by
        rw [show stE1.acl.Name = s1.acl.Name from rfl, hacl1]
      have h2 : stE1.acl.Id = st.acl.Id := by
        rw [show stE1.acl.Id = s1.acl.Id from rfl, hacl1]
      rw [h1, h2]
      exact hparse)
    (by
      rw [show stE1.acl.Scope = s1.acl.Scope from rfl, hacl1]
      exact hscope)
  have hpush2 : push_block_ip scope arn ip stE1 =
      (.ok (), { stE1 with acl := { stE1.acl with
          DefaultAction := stE1.acl.DefaultAction,
          VisibilityConfig := stE1.acl.VisibilityConfig,
          Rules := upsertRules stE1.acl.Rules (desiredRule (.IPSetReferenceStatement A)),
          LockToken := stE1.acl.LockToken + 1 } }) := by
    unfold push_block_ip
    rw [hrun2]
    exact hens2
  have hdname : (desiredRule (.IPSetReferenceStatement A)).Name = "CLIBlock" := rfl
  have hrulesE1 : stE1.acl.Rules
      = upsertRules st.acl.Rules (desiredRule (.IPSetReferenceStatement A)) := by
    rw [show stE1.acl.Rules
        = upsertRules s1.acl.Rules (desiredRule (.IPSetReferenceStatement A)) from rfl,
      hacl1]
  refine ⟨stE1, _, hpush1, hpush2, ⟨y, ?_, ?_⟩, ?_, ?_⟩
  · exact hlk1
  · exact List.count_eq_one_of_mem (hpw.imp (fun h => ne_of_lt h)) hmem
  · show countCLIBlock
        (upsertRules stE1.acl.Rules (desiredRule (.IPSetReferenceStatement A))) = 1
    rw [hrulesE1, upsertRules_idem _ _ hdname]
    exact countCLIBlock_upsertRules st.acl.Rules _ hdname hcli
  · show upsertRules stE1.acl.Rules (desiredRule (.IPSetReferenceStatement A))
        = stE1.acl.Rules
    rw [hrulesE1]
    exact upsertRules_idem _ _ hdname

/-- Witness for C1 at a concrete store and CIDR. -/
theorem C1_idempotent_address_block_witness :
    ∃ st₁ st₂,
      push_block_ip "REGIONAL" "arn:aws:wafv2:us-east-1:111:regional/webacl/myacl/abcd-1234"
          "1.2.3.4/32" witnessStore = (.ok (), st₁) ∧
      push_block_ip "REGIONAL" "arn:aws:wafv2:us-east-1:111:regional/webacl/myacl/abcd-1234"
          "1.2.3.4/32" st₁ = (.ok (), st₂) ∧
      (∃ y, lookupIPSet st₂ "REGIONAL" "cli-block-ips" = some y ∧
        y.Addresses.count "1.2.3.4/32" = 1) ∧
      countCLIBlock st₂.acl.Rules = 1 ∧
      st₂.acl.Rules = st₁.acl.Rules :=
  C1_idempotent_address_block witnessStore "REGIONAL"
    "arn:aws:wafv2:us-east-1:111:regional/webacl/myacl/abcd-1234" "1.2.3.4/32" "REGIONAL"
    (by decide) (by decide) (by decide) (by decide) (by decide)
